import Mathlib

/-!
Shallow embedding of the `server-proxy-rara-avis` repository: an Express
backend that relays media uploads to the Shopify files API.

Two variants of the server exist in the repository:

* the job-tracker variant (source file `src/unnamed/part_000`, third
  document): an in-memory `uploadStatuses` map of upload jobs with
  init / status / cancel endpoints, a periodic sweep, local
  compression, and per-kind staged-upload drivers; this is the primary
  embedding at the top level of this file;
* the simple variant (`src/src/server.ts`): a single stateless
  `/api/upload-file` endpoint; embedded in the `ServerTs` namespace.

Conventions of the embedding:

* the in-memory `Map<string, UploadStatus>` is an association list
  `JobTable` (keys are unique in every table the server builds);
* the temp-file directory is an association list `Files` from path to
  file content (a `String` standing for the byte blob);
* every outbound effect (fetch responses, compression outcome) is an
  explicit oracle argument, so handlers are pure functions from
  (state, request, oracle) to (state, response, network-call trace);
* JavaScript truthiness of an optional string field (`if (x.url)`) is
  `jsTruthy`: present and non-empty.
-/

/-- Job states of the `UploadStatus` interface (`part_000`, line 321). -/
inductive JobState
  | waiting
  | compressing
  | uploading
  | completed
  | error
  | cancelled
deriving DecidableEq, Repr

/-- The terminal states named by the spec: `completed`, `error`, `cancelled`. -/
def JobState.isTerminal : JobState → Bool
  | JobState.completed => true
  | JobState.error => true
  | JobState.cancelled => true
  | _ => false

/-- One record of the `uploadStatuses` map (`part_000`, lines 319-330).
`hasAbortController` models presence of the optional `abortController`
field; the optional `tempFiles` array is modelled with `[]` for absent. -/
structure UploadStatus where
  id : String
  status : JobState
  progress : Nat
  originalFilename : String
  errorMsg : Option String := none
  url : Option String := none
  ftype : String := ""
  timestamp : Option Nat := none
  hasAbortController : Bool := false
  tempFiles : List String := []
deriving DecidableEq, Repr

/-- The in-memory job map `uploadStatuses`, as an association list. -/
def JobTable : Type := List (String × UploadStatus)

instance : DecidableEq JobTable := by
  unfold JobTable
  infer_instance

/-- `uploadStatuses.get(id)`. -/
def lookupJob : JobTable → String → Option UploadStatus
  | [], _ => none
  | (k, v) :: rest, id => if k = id then some v else lookupJob rest id

/-- `uploadStatuses.has(id)`. -/
def hasJob (t : JobTable) (id : String) : Bool := (lookupJob t id).isSome

/-- `uploadStatuses.set(id, v)`: overwrite the binding, or append it. -/
def setJob : JobTable → String → UploadStatus → JobTable
  | [], id, v => [(id, v)]
  | (k, w) :: rest, id, v =>
    if k = id then (id, v) :: rest else (k, w) :: setJob rest id v

/-- `uploadStatuses.delete(id)`. -/
def eraseJob : JobTable → String → JobTable
  | [], _ => []
  | (k, w) :: rest, id => if k = id then rest else (k, w) :: eraseJob rest id

/-- `uploadStatuses.set(id, {...uploadStatuses.get(id)!, ...patch})`: the
read-modify-write idiom the server uses everywhere.  All call sites have
the key present; an absent key leaves the table unchanged. -/
def updateJob (t : JobTable) (id : String) (f : UploadStatus → UploadStatus) : JobTable :=
  match lookupJob t id with
  | some st => setJob t id (f st)
  | none => t

/-- The temp directory: association list from path to file content. -/
def Files : Type := List (String × String)

instance : DecidableEq Files := by
  unfold Files
  infer_instance

/-- Content stored at a path, if the file exists. -/
def lookupFile : Files → String → Option String
  | [], _ => none
  | (p, c) :: rest, q => if p = q then some c else lookupFile rest q

/-- `fs.existsSync(p)`. -/
def existsSync (fs : Files) (p : String) : Bool := (lookupFile fs p).isSome

/-- `fs.writeFileSync(p, c)` / the end state of producing a temp file. -/
def writeFile : Files → String → String → Files
  | [], p, c => [(p, c)]
  | (q, d) :: rest, p, c =>
    if q = p then (p, c) :: rest else (q, d) :: writeFile rest p c

/-- `fs.unlinkSync(p)`: errors (`ENOENT`) when the path is absent. -/
def unlinkSync (fs : Files) (p : String) : Except String Files :=
  if existsSync fs p then Except.ok (fs.filter (fun e => e.1 != p))
  else Except.error "ENOENT: no such file or directory"

/-- The guarded delete the server performs on each temp file:
`if (fs.existsSync(file)) { fs.unlinkSync(file) }` — before the
enclosing `try`/`catch` is applied. -/
def guardedUnlinkE (fs : Files) (p : String) : Except String Files :=
  if existsSync fs p then unlinkSync fs p else Except.ok fs

/-- The same delete with its enclosing `try`/`catch`: an error is logged
and the loop continues with the filesystem unchanged. -/
def guardedUnlink (fs : Files) (p : String) : Files :=
  match guardedUnlinkE fs p with
  | Except.ok fs2 => fs2
  | Except.error _ => fs

/-- `status.tempFiles.forEach((file) => { try { if exists unlink } catch log })`. -/
def deleteTempFiles (fs : Files) (paths : List String) : Files :=
  paths.foldl guardedUnlink fs

/-- Response bodies the endpoints produce (the JSON payload shapes). -/
inductive RespBody
  | errMsg (msg : String)
  | success (msg : String)
  | urlOf (u : String)
  | record (j : UploadStatus)
  | uploadIdOf (id : String)
  | jsonData (s : String)
deriving DecidableEq, Repr

/-- An HTTP response: status code plus JSON body. -/
structure HttpResponse where
  code : Nat
  body : RespBody
deriving DecidableEq, Repr

/-- Outbound network calls, for tracing which requests a handler issues. -/
inductive NetCall
  | stagedUploadsCreate
  | s3Upload
  | fileCreate
  | fileStatusQuery
deriving DecidableEq, Repr

/-- Result of `DELETE /api/cancel-upload/:uploadId`. -/
structure CancelResult where
  table : JobTable
  fs : Files
  resp : HttpResponse
  aborted : Bool
deriving DecidableEq

/-- `app.delete("/api/cancel-upload/:uploadId")` (`part_000`, lines 568-608):
404 for an unknown (or empty) id; otherwise abort the current controller
if any, overwrite the record with status `cancelled` and the fixed error
message, delete the temp files best-effort, and reply success.  There is
no terminal-state guard in the source. -/
def cancelUpload (table : JobTable) (fs : Files) (uploadId : String) : CancelResult :=
  if uploadId = "" then
    { table := table, fs := fs
      resp := { code := 404, body := RespBody.errMsg "Upload not found" }
      aborted := false }
  else
    match lookupJob table uploadId with
    | none =>
      { table := table, fs := fs
        resp := { code := 404, body := RespBody.errMsg "Upload not found" }
        aborted := false }
    | some st =>
      let table2 := setJob table uploadId
        { st with status := JobState.cancelled
                  errorMsg := some "Upload cancelled by user" }
      let fs2 := deleteTempFiles fs st.tempFiles
      { table := table2, fs := fs2
        resp := { code := 200, body := RespBody.success "Upload cancelled" }
        aborted := st.hasAbortController }

/-- `app.get("/api/upload-status/:uploadId")` (`part_000`, lines 556-565). -/
def getUploadStatus (table : JobTable) (uploadId : String) : HttpResponse :=
  if uploadId = "" then { code := 404, body := RespBody.errMsg "Upload not found" }
  else
    match lookupJob table uploadId with
    | none => { code := 404, body := RespBody.errMsg "Upload not found" }
    | some j => { code := 200, body := RespBody.record j }

/-- `app.post("/api/init-upload")` (`part_000`, lines 532-553); the fresh
uuid is an argument.  Missing body fields are modelled as `""`. -/
def initUpload (table : JobTable) (now : Nat) (newId filename fileType : String) :
    JobTable × HttpResponse :=
  if filename = "" ∨ fileType = "" then
    (table, { code := 400, body := RespBody.errMsg "Missing filename or fileType" })
  else
    (setJob table newId
      { id := newId, status := JobState.waiting, progress := 0
        originalFilename := filename, ftype := fileType
        timestamp := some now, tempFiles := [] },
     { code := 200, body := RespBody.uploadIdOf newId })

/-- The hourly sweep (`part_000`, lines 335-354): every entry whose
timestamp is present and older than one hour (3600000 ms) has its temp
files deleted best-effort and is removed from the table. -/
def sweep (now : Nat) : JobTable → Files → JobTable × Files
  | [], fs => ([], fs)
  | (id, st) :: rest, fs =>
    match st.timestamp with
    | some ts =>
      if now - ts > 3600000 then
        sweep now rest (deleteTempFiles fs st.tempFiles)
      else
        let r := sweep now rest fs
        ((id, st) :: r.1, r.2)
    | none =>
      let r := sweep now rest fs
      ((id, st) :: r.1, r.2)

/-! ## The file-status polling loop (job-tracker variant) -/

/-- The `node` object of a file-status query result: `fileStatus` plus the
kind-specific URL fields (`image.url`, `sources[..].url`, `url`). -/
structure FileNode where
  fileStatus : String
  imageUrl : Option String := none
  sources : List String := []
  url : Option String := none
deriving DecidableEq, Repr

/-- JavaScript truthiness of an optional string field. -/
def jsTruthy : Option String → Bool
  | none => false
  | some s => s != ""

/-- The optional string itself when truthy, `none` otherwise. -/
def directUrl (o : Option String) : Option String :=
  if jsTruthy o then o else none

/-- URL extraction from a READY node (`part_000`, lines 423-432):
`image?.url` first, then `sources[0].url` when the list is non-empty,
then a truthy `url`; `none` means `throw "Could not find URL for file"`. -/
def extractNodeUrl (n : FileNode) : Option String :=
  if jsTruthy n.imageUrl then n.imageUrl
  else
    match n.sources with
    | u :: _ => some u
    | [] => directUrl n.url

/-- Outcome of one file-status fetch, as seen by the tracker variant's
`waitForFileReady`: the fetch/json rejected with a non-abort error, it
rejected with `AbortError`, or it resolved and `result.data?.node` is the
given value. -/
inductive PollResponse
  | netErr
  | abortErr
  | node (n : Option FileNode)
deriving DecidableEq, Repr

/-- How `waitForFileReady` exits. -/
inductive WaitResult
  | ready (u : String)
  | cancelledErr
  | timeoutErr
deriving DecidableEq, Repr

/-- The exception/return value the caller of `waitForFileReady` sees. -/
def WaitResult.toExcept : WaitResult → Except String String
  | WaitResult.ready u => Except.ok u
  | WaitResult.cancelledErr => Except.error "Upload cancelled"
  | WaitResult.timeoutErr =>
    Except.error "The file did not become ready in the allotted time."

/-- Trace of one run of the tracker variant's `waitForFileReady`. -/
structure WaitTrace where
  result : WaitResult
  queries : Nat
  sleeps : List Nat
  table : JobTable
deriving DecidableEq

/-- `waitForFileReady(fileId, uploadId, maxAttempts, interval)` of the
job-tracker variant (`part_000`, lines 356-445), fuelled by the remaining
attempt count.  Each iteration: observe the job record (missing or
`cancelled` means `throw "Upload cancelled"`); install a fresh abort
controller on the record; issue the status query (`pollEnv attempt`).
`AbortError` becomes `"Upload cancelled"`.  Any other error thrown inside
the `try` — a network failure, a missing node (`"File not found"`), or a
READY node without a usable URL (`"Could not find URL for file"`) — is
caught, logged, and the loop sleeps `interval` ms and continues.  After
`maxAttempts` iterations it throws the timeout error. -/
def waitForFileReadyGo (pollEnv : Nat → PollResponse) (uploadId : String)
    (interval : Nat) (table : JobTable) (attempt : Nat) : Nat → WaitTrace
  | 0 => { result := WaitResult.timeoutErr, queries := 0, sleeps := [], table := table }
  | Nat.succ fuel =>
    match lookupJob table uploadId with
    | none =>
      { result := WaitResult.cancelledErr, queries := 0, sleeps := [], table := table }
    | some st =>
      if st.status = JobState.cancelled then
        { result := WaitResult.cancelledErr, queries := 0, sleeps := [], table := table }
      else
        let t2 := setJob table uploadId { st with hasAbortController := true }
        match pollEnv attempt with
        | PollResponse.abortErr =>
          { result := WaitResult.cancelledErr, queries := 1, sleeps := [], table := t2 }
        | PollResponse.netErr =>
          let r := waitForFileReadyGo pollEnv uploadId interval t2 (attempt + 1) fuel
          { result := r.result, queries := r.queries + 1
            sleeps := interval :: r.sleeps, table := r.table }
        | PollResponse.node none =>
          let r := waitForFileReadyGo pollEnv uploadId interval t2 (attempt + 1) fuel
          { result := r.result, queries := r.queries + 1
            sleeps := interval :: r.sleeps, table := r.table }
        | PollResponse.node (some n) =>
          if n.fileStatus = "READY" then
            match extractNodeUrl n with
            | some u =>
              { result := WaitResult.ready u, queries := 1, sleeps := [], table := t2 }
            | none =>
              let r := waitForFileReadyGo pollEnv uploadId interval t2 (attempt + 1) fuel
              { result := r.result, queries := r.queries + 1
                sleeps := interval :: r.sleeps, table := r.table }
          else
            let r := waitForFileReadyGo pollEnv uploadId interval t2 (attempt + 1) fuel
            { result := r.result, queries := r.queries + 1
              sleeps := interval :: r.sleeps, table := r.table }

/-- Entry point of the tracker variant's `waitForFileReady`; the source
defaults are `maxAttempts = 30`, `interval = 5000`. -/
def waitForFileReady (pollEnv : Nat → PollResponse) (uploadId : String)
    (table : JobTable) (maxAttempts interval : Nat) : WaitTrace :=
  waitForFileReadyGo pollEnv uploadId interval table 0 maxAttempts

/-- A poll response on which the tracker variant's loop keeps going:
everything except `AbortError` and a READY node with a usable URL. -/
def pollContinues : PollResponse → Bool
  | PollResponse.netErr => true
  | PollResponse.abortErr => false
  | PollResponse.node none => true
  | PollResponse.node (some n) =>
    if n.fileStatus = "READY" then (extractNodeUrl n).isNone else true

/-! ## The staged-upload drivers (job-tracker variant) -/

/-- One entry of `stagedUploadsCreate.stagedTargets`. -/
structure StagedTarget where
  url : String
  resourceUrl : String
  parameters : List (String × String) := []
deriving DecidableEq, Repr

/-- `fileCreate.files[0]`, flattened over the three GraphQL fragments:
`id`, `image.url` (MediaImage), `sources[..].url` (Video), `url`
(GenericFile). -/
structure FCFile where
  id : Option String := none
  imageUrl : Option String := none
  sources : List String := []
  url : Option String := none
deriving DecidableEq, Repr

/-- The parsed `fileCreate` payload: first file and user-error messages. -/
structure FCResp where
  firstFile : Option FCFile := none
  userErrors : List String := []
deriving DecidableEq, Repr

/-- Responses the remote side gives to one run of an upload driver.
`Except.error m` on a step means that fetch (or its `.json()`) rejected
with an error whose message is `m`. -/
structure NetEnv where
  stagedResp : Except String (Option StagedTarget)
  s3Resp : Except String (Bool × String)
  fcResp : Except String FCResp
  pollEnv : Nat → PollResponse

/-- `createStagedUpload` (`part_000`, lines 1135-1212): reject a VIDEO
above 100MB, install an abort controller, then issue the
`stagedUploadsCreate` mutation; `stagedTargets[0]` absent is an error. -/
def createStagedUpload (env : NetEnv) (table : JobTable) (uploadId : String)
    (resource : String) (fileSize : Nat) :
    Except String StagedTarget × JobTable × List NetCall :=
  if resource = "VIDEO" ∧ fileSize > 100 * 1024 * 1024 then
    (Except.error "Video file exceeds maximum size of 100MB", table, [])
  else
    let t2 := updateJob table uploadId (fun st => { st with hasAbortController := true })
    match env.stagedResp with
    | Except.error e => (Except.error e, t2, [NetCall.stagedUploadsCreate])
    | Except.ok none =>
      (Except.error "Failed to get download URL", t2, [NetCall.stagedUploadsCreate])
    | Except.ok (some tg) => (Except.ok tg, t2, [NetCall.stagedUploadsCreate])

/-- `uploadFileToS3` (`part_000`, lines 1215-1257): progress 60, abort
controller, multipart POST to the staged URL; a non-ok response is an
error carrying the response text. -/
def uploadFileToS3 (env : NetEnv) (table : JobTable) (uploadId : String) :
    Except String Unit × JobTable × List NetCall :=
  let t2 := updateJob table uploadId
    (fun st => { st with status := JobState.uploading, progress := 60 })
  let t3 := updateJob t2 uploadId (fun st => { st with hasAbortController := true })
  match env.s3Resp with
  | Except.error e => (Except.error e, t3, [NetCall.s3Upload])
  | Except.ok (ok, body) =>
    if ok then (Except.ok (), t3, [NetCall.s3Upload])
    else (Except.error ("Loading error S3: " ++ body), t3, [NetCall.s3Upload])

/-- Outcome of one driver run: thrown message or resolved URL, plus the
job table after the driver's status writes and the network calls made. -/
def DriverResult : Type := Except String String × JobTable × List NetCall

/-- `uploadImageToShopify` (`part_000`, lines 971-1051): staged upload
(resource `"FILE"`), S3 push, progress 80, `fileCreate` with the
MediaImage fragment; a truthy `files[0].image.url` is returned directly,
otherwise a truthy `files[0].id` starts ready-polling, otherwise the
driver throws.  `fileSize` is the size of the compressed artifact
(`fs.statSync`); it is only consulted by `createStagedUpload`'s VIDEO
limit, which resource `"FILE"` never reaches. -/
def uploadImageToShopify (env : NetEnv) (table : JobTable) (uploadId : String)
    (fileSize : Nat) : DriverResult :=
  match createStagedUpload env table uploadId "FILE" fileSize with
  | (Except.error e, t, calls) => (Except.error e, t, calls)
  | (Except.ok _tg, t, calls) =>
    match uploadFileToS3 env t uploadId with
    | (Except.error e, t2, calls2) => (Except.error e, t2, calls ++ calls2)
    | (Except.ok _, t2, calls2) =>
      let t3 := updateJob t2 uploadId
        (fun st => { st with status := JobState.uploading, progress := 80 })
      let t4 := updateJob t3 uploadId (fun st => { st with hasAbortController := true })
      match env.fcResp with
      | Except.error e => (Except.error e, t4, calls ++ calls2 ++ [NetCall.fileCreate])
      | Except.ok fc =>
        let base := calls ++ calls2 ++ [NetCall.fileCreate]
        let direct := match fc.firstFile with
          | some f => directUrl f.imageUrl
          | none => none
        match direct with
        | some u => (Except.ok u, t4, base)
        | none =>
          let fid := match fc.firstFile with
            | some f => directUrl f.id
            | none => none
          match fid with
          | none => (Except.error "Failed to create image in Shopify", t4, base)
          | some _ =>
            let w := waitForFileReady env.pollEnv uploadId t4 30 5000
            (w.result.toExcept, w.table,
              base ++ List.replicate w.queries NetCall.fileStatusQuery)

/-- `uploadGenericFileToShopify` (`part_000`, lines 1054-1132): identical
to the image driver except for the GenericFile fragment — the direct URL
check is a truthy `files[0].url` — and the error message. -/
def uploadGenericFileToShopify (env : NetEnv) (table : JobTable) (uploadId : String)
    (fileSize : Nat) : DriverResult :=
  match createStagedUpload env table uploadId "FILE" fileSize with
  | (Except.error e, t, calls) => (Except.error e, t, calls)
  | (Except.ok _tg, t, calls) =>
    match uploadFileToS3 env t uploadId with
    | (Except.error e, t2, calls2) => (Except.error e, t2, calls ++ calls2)
    | (Except.ok _, t2, calls2) =>
      let t3 := updateJob t2 uploadId
        (fun st => { st with status := JobState.uploading, progress := 80 })
      let t4 := updateJob t3 uploadId (fun st => { st with hasAbortController := true })
      match env.fcResp with
      | Except.error e => (Except.error e, t4, calls ++ calls2 ++ [NetCall.fileCreate])
      | Except.ok fc =>
        let base := calls ++ calls2 ++ [NetCall.fileCreate]
        let direct := match fc.firstFile with
          | some f => directUrl f.url
          | none => none
        match direct with
        | some u => (Except.ok u, t4, base)
        | none =>
          let fid := match fc.firstFile with
            | some f => directUrl f.id
            | none => none
          match fid with
          | none => (Except.error "Failed to create file in Shopify", t4, base)
          | some _ =>
            let w := waitForFileReady env.pollEnv uploadId t4 30 5000
            (w.result.toExcept, w.table,
              base ++ List.replicate w.queries NetCall.fileStatusQuery)

/-- `uploadVideoToShopify` (`part_000`, lines 776-968): progress 50, an
inlined staged upload with resource `"VIDEO"` (no local size re-check, and
a video-specific failure message), progress 70, S3 push, progress 80,
`fileCreate` with the Video fragment; a truthy `sources[0].url` is
returned directly; on a falsy `files[0].id` the first user-error message
is thrown if present. -/
def uploadVideoToShopify (env : NetEnv) (table : JobTable) (uploadId : String) :
    DriverResult :=
  let t1 := updateJob table uploadId
    (fun st => { st with status := JobState.uploading, progress := 50 })
  let t2 := updateJob t1 uploadId (fun st => { st with hasAbortController := true })
  match env.stagedResp with
  | Except.error e => (Except.error e, t2, [NetCall.stagedUploadsCreate])
  | Except.ok none =>
    (Except.error "Failed to get download URL for video", t2, [NetCall.stagedUploadsCreate])
  | Except.ok (some _tg) =>
    let t3 := updateJob t2 uploadId
      (fun st => { st with status := JobState.uploading, progress := 70 })
    let t4 := updateJob t3 uploadId (fun st => { st with hasAbortController := true })
    match env.s3Resp with
    | Except.error e =>
      (Except.error e, t4, [NetCall.stagedUploadsCreate, NetCall.s3Upload])
    | Except.ok (ok, body) =>
      if ok = false then
        (Except.error ("Loading error S3: " ++ body), t4,
          [NetCall.stagedUploadsCreate, NetCall.s3Upload])
      else
        let t5 := updateJob t4 uploadId
          (fun st => { st with status := JobState.uploading, progress := 80 })
        let t6 := updateJob t5 uploadId (fun st => { st with hasAbortController := true })
        match env.fcResp with
        | Except.error e =>
          (Except.error e, t6,
            [NetCall.stagedUploadsCreate, NetCall.s3Upload, NetCall.fileCreate])
        | Except.ok fc =>
          let base := [NetCall.stagedUploadsCreate, NetCall.s3Upload, NetCall.fileCreate]
          let direct := match fc.firstFile with
            | some f => directUrl f.sources.head?
            | none => none
          match direct with
          | some u => (Except.ok u, t6, base)
          | none =>
            let fid := match fc.firstFile with
              | some f => directUrl f.id
              | none => none
            match fid with
            | none =>
              match fc.userErrors with
              | m :: _ => (Except.error m, t6, base)
              | [] => (Except.error "Failed to create video in Shopify", t6, base)
            | some _ =>
              let w := waitForFileReady env.pollEnv uploadId t6 30 5000
              (w.result.toExcept, w.table,
                base ++ List.replicate w.queries NetCall.fileStatusQuery)

/-! ## The `/api/upload-file` handler (job-tracker variant) -/

/-- The `req.file` object multer provides: disk path in the temp
directory, original name, size in bytes, MIME type, and the generated
basename (`file.filename`). -/
structure MFile where
  path : String
  originalname : String
  size : Nat
  mimetype : String
  filename : String
deriving DecidableEq, Repr

/-- Outcome of the local transformation (`compressImage` /
`compressVideo`): resolved with the transformed bytes written to the
output path, or rejected with an error message (`"Upload cancelled"` when
the cancellation checker killed the encoder). -/
inductive CompressOutcome
  | ok (content : String)
  | thrown (msg : String)
deriving DecidableEq, Repr

/-- All oracle inputs of one `/api/upload-file` request. -/
structure UploadReqEnv where
  compress : CompressOutcome
  net : NetEnv

/-- Final outcome of one `/api/upload-file` request. -/
structure HandlerResult where
  table : JobTable
  fs : Files
  resp : HttpResponse
  calls : List NetCall
deriving DecidableEq

/-- `uploadStatuses.get(uploadId)?.status === "cancelled"`. -/
def jobCancelled (t : JobTable) (id : String) : Bool :=
  match lookupJob t id with
  | some st => st.status == JobState.cancelled
  | none => false

/-- The oversize message of the tracker variant (10MB images, 100MB
videos; any other `fileType` gets the video wording, as in the source). -/
def tooLargeMsg (fileType : String) : String :=
  "File too large. " ++ (if fileType = "image" then "Images" else "Videos") ++
    " must be under " ++ (if fileType = "image" then "10MB" else "100MB") ++ "."

/-- The handler's final cleanup block (`part_000`, lines 748-758):
`try { if exists unlink original; if exists unlink compressed } catch log`.
In the model neither guarded unlink can fail, so the block is the two
guarded deletes in sequence. -/
def cleanupPair (fs : Files) (p1 p2 : String) : Files :=
  guardedUnlink (guardedUnlink fs p1) p2

/-- The outer `catch` of the handler (`part_000`, lines 759-772): mark the
job `error` when it exists and answer 500. -/
def uploadOuterCatch (table : JobTable) (fs : Files) (uploadId : String) : HandlerResult :=
  let t2 :=
    if uploadId = "" then table
    else if hasJob table uploadId then
      updateJob table uploadId (fun st =>
        { st with status := JobState.error
                  errorMsg := some "Loading error processing file" })
    else table
  { table := t2, fs := fs
    resp := { code := 500, body := RespBody.errMsg "Loading error processing file" }
    calls := [] }

/-- The tail of the handler after the compression step (`part_000`,
lines 703-758): re-check cancellation, dispatch to the kind-specific
driver, then either mark `completed` with the URL or map the failure
(`"Upload cancelled"` to a 400, anything else to the `error` state and a
500), and finally delete the two temp files. -/
def afterCompress (table : JobTable) (fs : Files) (f : MFile)
    (compressedPath fileType uploadId : String) (net : NetEnv) : HandlerResult :=
  if jobCancelled table uploadId then
    { table := table, fs := fs
      resp := { code := 400, body := RespBody.errMsg "Upload cancelled by user" }
      calls := [] }
  else
    let d : DriverResult :=
      if fileType = "image" then uploadImageToShopify net table uploadId f.size
      else if fileType = "video" then uploadVideoToShopify net table uploadId
      else uploadGenericFileToShopify net table uploadId f.size
    match d with
    | (Except.ok u, t2, calls) =>
      let t3 := updateJob t2 uploadId (fun st =>
        { st with status := JobState.completed, progress := 100, url := some u })
      { table := t3, fs := cleanupPair fs f.path compressedPath
        resp := { code := 200, body := RespBody.urlOf u }, calls := calls }
    | (Except.error m, t2, calls) =>
      if m = "Upload cancelled" then
        { table := t2, fs := fs
          resp := { code := 400, body := RespBody.errMsg "Upload cancelled by user" }
          calls := calls }
      else
        let msg := if m = "" then "Error uploading file" else m
        let t3 := updateJob t2 uploadId (fun st =>
          { st with status := JobState.error, errorMsg := some msg })
        { table := t3, fs := cleanupPair fs f.path compressedPath
          resp := { code := 500, body := RespBody.errMsg "Error uploading file" }
          calls := calls }

/-- `app.post("/api/upload-file")` of the job-tracker variant (`part_000`,
lines 611-773).  In order: missing file → 400; unknown/empty uploadId →
400; record the original's path in `tempFiles` and move to
`compressing`/10; oversize → `error` state and 400, with no cleanup and
no network call; cancellation check; record the compressed path in
`tempFiles` (the pushed array is shared with the stored record); run the
transformation — on a thrown `"Upload cancelled"` answer 400, on any
other thrown error fall back to copying the original bytes to the
compressed path (`copyFileSync`; a missing source would escape to the
outer catch) — then move to `uploading`/30 and continue with
`afterCompress`. -/
def uploadFileHandler (table : JobTable) (fs : Files) (file : Option MFile)
    (fileType uploadId : String) (env : UploadReqEnv) : HandlerResult :=
  match file with
  | none =>
    { table := table, fs := fs
      resp := { code := 400, body := RespBody.errMsg "The file was not uploaded" }
      calls := [] }
  | some f =>
    if uploadId = "" ∨ ¬ hasJob table uploadId then
      { table := table, fs := fs
        resp := { code := 400, body := RespBody.errMsg "Invalid upload ID" }
        calls := [] }
    else
      let table := updateJob table uploadId (fun st =>
        { st with tempFiles := st.tempFiles ++ [f.path]
                  status := JobState.compressing, progress := 10 })
      let maxSize := if fileType = "image" then 10 * 1024 * 1024 else 100 * 1024 * 1024
      if f.size > maxSize then
        let table := updateJob table uploadId (fun st =>
          { st with status := JobState.error, errorMsg := some (tooLargeMsg fileType) })
        { table := table, fs := fs
          resp := { code := 400, body := RespBody.errMsg (tooLargeMsg fileType) }
          calls := [] }
      else if jobCancelled table uploadId then
        { table := table, fs := fs
          resp := { code := 400, body := RespBody.errMsg "Upload cancelled by user" }
          calls := [] }
      else
        let compressedPath := "temp/compressed-" ++ f.filename
        let table := updateJob table uploadId (fun st =>
          { st with tempFiles := st.tempFiles ++ [compressedPath] })
        if fileType = "image" ∨ fileType = "video" then
          match env.compress with
          | CompressOutcome.ok c =>
            let fs2 := writeFile fs compressedPath c
            let table := updateJob table uploadId (fun st =>
              { st with status := JobState.uploading, progress := 30 })
            afterCompress table fs2 f compressedPath fileType uploadId env.net
          | CompressOutcome.thrown m =>
            if m = "Upload cancelled" then
              { table := table, fs := fs
                resp := { code := 400, body := RespBody.errMsg "Upload cancelled by user" }
                calls := [] }
            else
              match lookupFile fs f.path with
              | none => uploadOuterCatch table fs uploadId
              | some c =>
                let fs2 := writeFile fs compressedPath c
                let table := updateJob table uploadId (fun st =>
                  { st with status := JobState.uploading, progress := 30 })
                afterCompress table fs2 f compressedPath fileType uploadId env.net
        else
          match lookupFile fs f.path with
          | none => uploadOuterCatch table fs uploadId
          | some c =>
            let fs2 := writeFile fs compressedPath c
            let table := updateJob table uploadId (fun st =>
              { st with status := JobState.uploading, progress := 30 })
            afterCompress table fs2 f compressedPath fileType uploadId env.net

/-! ## The `/shopify-admin-proxy` endpoint (identical in both variants) -/

/-- What the platform did with the proxied request: the fetch rejected
(transport failure), or the platform replied with the given `ok` flag and
`.json()` outcome. -/
inductive ProxyEnv
  | transportErr (msg : String)
  | replied (ok : Bool) (body : Except String String)
deriving Repr

/-- The forwarded request: payload (`JSON.stringify(req.body)`) and
whether the access-token header was attached. -/
structure ProxyCall where
  payload : String
  hasToken : Bool
deriving DecidableEq, Repr

/-- `app.post("/shopify-admin-proxy")` (`part_000`, lines 1259-1278;
`server.ts`, lines 400-422): forward the body with the token; any
rejected fetch, non-ok platform status (`throw "Shopify API error"`), or
failed `.json()` is caught and answered with a generic 500; otherwise the
parsed platform payload is echoed back. -/
def shopifyAdminProxy (reqBody : String) (env : ProxyEnv) : HttpResponse × ProxyCall :=
  let call : ProxyCall := { payload := reqBody, hasToken := true }
  match env with
  | ProxyEnv.transportErr _ =>
    ({ code := 500, body := RespBody.errMsg "Internal server error" }, call)
  | ProxyEnv.replied ok body =>
    if ok = false then
      ({ code := 500, body := RespBody.errMsg "Internal server error" }, call)
    else
      match body with
      | Except.error _ =>
        ({ code := 500, body := RespBody.errMsg "Internal server error" }, call)
      | Except.ok data => ({ code := 200, body := RespBody.jsonData data }, call)

/-! ## The simple variant (`src/src/server.ts`) -/

namespace ServerTs

/-- Outcome of one file-status fetch in the simple variant: the fetch (or
`.json()`) rejected with the given message, or resolved with
`result.data?.node`. -/
inductive PollOutcome
  | thrownNet (msg : String)
  | node (n : Option FileNode)
deriving DecidableEq, Repr

/-- `waitForFileReady(fileId, maxAttempts = 30, interval = 5000)` of
`server.ts` (lines 8-80).  No `try`/`catch` and no cancellation check: a
rejected fetch, a missing node (`"File not found"`) or a READY node with
no usable URL (`"Could not find URL for file"`) all reject the whole
call at once; only a non-READY node sleeps and retries.  Returns the
outcome, the number of status queries issued, and the sleep durations. -/
def waitForFileReady (env : Nat → PollOutcome) (interval : Nat) (attempt : Nat) :
    Nat → Except String String × Nat × List Nat
  | 0 => (Except.error "The file did not become ready in the allotted time.", 0, [])
  | Nat.succ fuel =>
    match env attempt with
    | PollOutcome.thrownNet m => (Except.error m, 1, [])
    | PollOutcome.node none => (Except.error "File not found", 1, [])
    | PollOutcome.node (some n) =>
      if n.fileStatus = "READY" then
        match extractNodeUrl n with
        | some u => (Except.ok u, 1, [])
        | none => (Except.error "Could not find URL for file", 1, [])
      else
        let r := waitForFileReady env interval (attempt + 1) fuel
        (r.1, r.2.1 + 1, interval :: r.2.2)

/-- Oracle inputs of one `server.ts` `/api/upload-file` request.
`genericFcDirect` is the video-only base64 `fileCreate` attempt:
`Except.error` when that fetch rejected (caught and logged), `Except.ok`
with `files[0].url` otherwise. -/
structure STEnv where
  genericFcDirect : Except String (Option String)
  stagedResp : Except String (Option StagedTarget)
  s3Resp : Except String (Bool × String)
  fcResp : Except String FCResp
  pollEnv : Nat → PollOutcome

/-- The oversize message of the simple variant (10MB images, 50MB
videos). -/
def tooLargeMsg (fileType : String) : String :=
  "File too large. " ++ (if fileType = "image" then "Images" else "Videos") ++
    " must be under " ++ (if fileType = "image" then "10MB" else "50MB") ++ "."

/-- `app.post("/api/upload-file")` of `server.ts` (lines 102-398).
Missing file → 400; oversize (10MB image / 50MB otherwise) → 400 before
any network call; for videos, a base64 `fileCreate` is attempted first
and a truthy `files[0].url` is answered directly (its errors are
swallowed); then the staged pipeline with resource `VIDEO`/`FILE`; the
`contentType` for `fileCreate` is `IMAGE` for images and `VIDEO`
otherwise; direct URLs in the `fileCreate` response (image URL, first
video source, generic URL) skip polling; a falsy `files[0].id` is a 500;
otherwise poll with the defaults (30 attempts, 5000 ms), answering 500
with the fixed not-ready message on any polling failure.  A rejected
staged/S3/`fileCreate` fetch escapes to the outer catch (500 `"Loading
error processing file"`). -/
def uploadFile (file : Option MFile) (fileType : String) (env : STEnv) :
    HttpResponse × List NetCall :=
  match file with
  | none => ({ code := 400, body := RespBody.errMsg "The file was not uploaded" }, [])
  | some f =>
    let maxSize := if fileType = "image" then 10 * 1024 * 1024 else 50 * 1024 * 1024
    if f.size > maxSize then
      ({ code := 400, body := RespBody.errMsg (tooLargeMsg fileType) }, [])
    else
      let videoCalls : List NetCall :=
        if fileType = "video" then [NetCall.fileCreate] else []
      let videoDirect : Option String :=
        if fileType = "video" then
          match env.genericFcDirect with
          | Except.ok (some u) => some u
          | _ => none
        else none
      match videoDirect with
      | some u => ({ code := 200, body := RespBody.urlOf u }, videoCalls)
      | none =>
        match env.stagedResp with
        | Except.error _ =>
          ({ code := 500, body := RespBody.errMsg "Loading error processing file" },
            videoCalls ++ [NetCall.stagedUploadsCreate])
        | Except.ok none =>
          ({ code := 500, body := RespBody.errMsg "Failed to get download URL" },
            videoCalls ++ [NetCall.stagedUploadsCreate])
        | Except.ok (some _tg) =>
          match env.s3Resp with
          | Except.error _ =>
            ({ code := 500, body := RespBody.errMsg "Loading error processing file" },
              videoCalls ++ [NetCall.stagedUploadsCreate, NetCall.s3Upload])
          | Except.ok (ok, _body) =>
            if ok = false then
              ({ code := 500, body := RespBody.errMsg "Loading error S3" },
                videoCalls ++ [NetCall.stagedUploadsCreate, NetCall.s3Upload])
            else
              match env.fcResp with
              | Except.error _ =>
                ({ code := 500, body := RespBody.errMsg "Loading error processing file" },
                  videoCalls ++ [NetCall.stagedUploadsCreate, NetCall.s3Upload,
                    NetCall.fileCreate])
              | Except.ok fc =>
                let base := videoCalls ++ [NetCall.stagedUploadsCreate, NetCall.s3Upload,
                  NetCall.fileCreate]
                let dImg := match fc.firstFile with
                  | some x => directUrl x.imageUrl
                  | none => none
                let dVid := match fc.firstFile with
                  | some x => directUrl x.sources.head?
                  | none => none
                let dGen := match fc.firstFile with
                  | some x => directUrl x.url
                  | none => none
                let direct :=
                  if fileType = "image" then
                    match dImg with
                    | some u => some u
                    | none => dGen
                  else
                    match dVid with
                    | some u => some u
                    | none => dGen
                match direct with
                | some u => ({ code := 200, body := RespBody.urlOf u }, base)
                | none =>
                  let fid := match fc.firstFile with
                    | some x => directUrl x.id
                    | none => none
                  match fid with
                  | none =>
                    ({ code := 500,
                       body := RespBody.errMsg "Failed to create file in Shopify" }, base)
                  | some _ =>
                    let r := waitForFileReady env.pollEnv 5000 0 30
                    match r.1 with
                    | Except.ok u =>
                      ({ code := 200, body := RespBody.urlOf u },
                        base ++ List.replicate r.2.1 NetCall.fileStatusQuery)
                    | Except.error _ =>
                      ({ code := 500,
                         body := RespBody.errMsg "The file was not ready in the allotted time" },
                        base ++ List.replicate r.2.1 NetCall.fileStatusQuery)

end ServerTs

/-! ## Basic lemmas about the job table and the temp directory -/

theorem lookupJob_setJob_self (t : JobTable) (id : String) (v : UploadStatus) :
    lookupJob (setJob t id v) id = some v := by
  induction t with
  | nil => simp [setJob, lookupJob]
  | cons e rest ih =>
    obtain ⟨k, w⟩ := e
    by_cases h : k = id <;> simp [setJob, lookupJob, h, ih]

theorem lookupJob_setJob_ne (t : JobTable) (id id2 : String) (v : UploadStatus)
    (h : ¬ id = id2) : lookupJob (setJob t id v) id2 = lookupJob t id2 := by
  induction t with
  | nil => simp [setJob, lookupJob, h]
  | cons e rest ih =>
    obtain ⟨k, w⟩ := e
    by_cases hk : k = id
    · subst hk
      simp [setJob, lookupJob, h]
    · simp [setJob, lookupJob, hk, ih]

theorem setJob_self_of_lookup (t : JobTable) (id : String) (v : UploadStatus)
    (h : lookupJob t id = some v) : setJob t id v = t := by
  induction t with
  | nil => simp [lookupJob] at h
  | cons e rest ih =>
    obtain ⟨k, w⟩ := e
    by_cases hk : k = id
    · subst hk
      simp [lookupJob] at h
      simp [setJob, h]
    · simp [lookupJob, hk] at h
      simp [setJob, hk, ih h]

theorem hasJob_setJob_self (t : JobTable) (id : String) (v : UploadStatus) :
    hasJob (setJob t id v) id = true := by
  simp [hasJob, lookupJob_setJob_self]

theorem lookupJob_updateJob_self (t : JobTable) (id : String)
    (f : UploadStatus → UploadStatus) (st : UploadStatus)
    (h : lookupJob t id = some st) :
    lookupJob (updateJob t id f) id = some (f st) := by
  simp [updateJob, h, lookupJob_setJob_self]

theorem lookupFile_filter_self (fs : Files) (p : String) :
    lookupFile (fs.filter (fun e => e.1 != p)) p = none := by
  induction fs with
  | nil => rfl
  | cons e rest ih =>
    obtain ⟨q, c⟩ := e
    by_cases h : q = p
    · simpa [List.filter_cons, h] using ih
    · simpa [List.filter_cons, h, lookupFile] using ih

theorem lookupFile_filter_none (fs : Files) (g : String × String → Bool) (q : String)
    (h : lookupFile fs q = none) : lookupFile (fs.filter g) q = none := by
  induction fs with
  | nil => rfl
  | cons e rest ih =>
    obtain ⟨p, c⟩ := e
    by_cases hp : p = q
    · simp [lookupFile, hp] at h
    · simp [lookupFile, hp] at h
      by_cases hg : g (p, c) <;>
        simp [List.filter_cons, hg, lookupFile, hp, ih h]

theorem existsSync_guardedUnlink_self (fs : Files) (p : String) :
    existsSync (guardedUnlink fs p) p = false := by
  by_cases h : existsSync fs p = true
  · simp only [existsSync] at h
    simp [guardedUnlink, guardedUnlinkE, unlinkSync, existsSync, h,
      lookupFile_filter_self]
  · simp at h
    simp [guardedUnlink, guardedUnlinkE, h]

theorem existsSync_guardedUnlink_mono (fs : Files) (p q : String)
    (h : existsSync fs q = false) : existsSync (guardedUnlink fs p) q = false := by
  have hq : lookupFile fs q = none := by
    cases hq : lookupFile fs q with
    | none => rfl
    | some c => rw [existsSync, hq] at h; simp at h
  by_cases hp : existsSync fs p = true
  · simp only [existsSync] at hp
    simp [guardedUnlink, guardedUnlinkE, unlinkSync, existsSync, hp,
      lookupFile_filter_none fs _ q hq]
  · simp at hp
    simpa [guardedUnlink, guardedUnlinkE, hp] using h

theorem existsSync_deleteTempFiles_mono (paths : List String) :
    ∀ (fs : Files) (q : String), existsSync fs q = false →
      existsSync (deleteTempFiles fs paths) q = false := by
  induction paths with
  | nil => intro fs q h; simpa [deleteTempFiles] using h
  | cons a rest ih =>
    intro fs q h
    simpa [deleteTempFiles] using
      ih (guardedUnlink fs a) q (existsSync_guardedUnlink_mono fs a q h)

theorem existsSync_deleteTempFiles_of_mem (paths : List String) :
    ∀ (fs : Files) (p : String), p ∈ paths →
      existsSync (deleteTempFiles fs paths) p = false := by
  induction paths with
  | nil => intro fs p h; cases h
  | cons a rest ih =>
    intro fs p h
    rcases List.mem_cons.mp h with h1 | h2
    · subst h1
      simpa [deleteTempFiles] using
        existsSync_deleteTempFiles_mono rest (guardedUnlink fs p) p
          (existsSync_guardedUnlink_self fs p)
    · simpa [deleteTempFiles] using ih (guardedUnlink fs a) p h2

theorem lookupJob_none_of_not_mem_keys (t : JobTable) (id : String)
    (h : id ∉ t.map Prod.fst) : lookupJob t id = none := by
  induction t with
  | nil => rfl
  | cons e rest ih =>
    obtain ⟨k, v⟩ := e
    simp only [List.map_cons, List.mem_cons] at h
    push_neg at h
    have hk : ¬ k = id := fun hkk => h.1 hkk.symm
    simp [lookupJob, hk, ih h.2]

theorem sweep_lookup_none (now : Nat) :
    ∀ (t : JobTable) (fs : Files) (id : String), id ∉ t.map Prod.fst →
      lookupJob (sweep now t fs).1 id = none := by
  intro t
  induction t with
  | nil => intro fs id _; rfl
  | cons e rest ih =>
    obtain ⟨k, v⟩ := e
    intro fs id h
    simp only [List.map_cons, List.mem_cons] at h
    push_neg at h
    have hk : ¬ k = id := fun hkk => h.1 hkk.symm
    cases hv : v.timestamp with
    | some ts =>
      by_cases hold : now - ts > 3600000
      · simp [sweep, hv, hold, ih _ _ h.2]
      · simp [sweep, hv, hold, lookupJob, hk, ih _ _ h.2]
    | none => simp [sweep, hv, lookupJob, hk, ih _ _ h.2]

theorem sweep_keeps_young (now : Nat) :
    ∀ (t : JobTable) (fs : Files) (id : String) (st : UploadStatus) (ts : Nat),
      lookupJob t id = some st → st.timestamp = some ts → ¬ now - ts > 3600000 →
      lookupJob (sweep now t fs).1 id = some st := by
  intro t
  induction t with
  | nil => intro fs id st ts h _ _; simp [lookupJob] at h
  | cons e rest ih =>
    obtain ⟨k, v⟩ := e
    intro fs id st ts hl hts hyoung
    by_cases hk : k = id
    · subst hk
      simp only [lookupJob, if_pos rfl] at hl
      cases hl
      simp [sweep, hts, hyoung, lookupJob]
    · simp only [lookupJob, if_neg hk] at hl
      cases hv : v.timestamp with
      | some ts2 =>
        by_cases hold : now - ts2 > 3600000
        · simp [sweep, hv, hold, ih _ _ _ _ hl hts hyoung]
        · simp [sweep, hv, hold, lookupJob, hk, ih _ _ _ _ hl hts hyoung]
      | none => simp [sweep, hv, lookupJob, hk, ih _ _ _ _ hl hts hyoung]

theorem sweep_evicts_old (now : Nat) :
    ∀ (t : JobTable) (fs : Files) (id : String) (st : UploadStatus) (ts : Nat),
      (t.map Prod.fst).Nodup →
      lookupJob t id = some st → st.timestamp = some ts → now - ts > 3600000 →
      lookupJob (sweep now t fs).1 id = none := by
  intro t
  induction t with
  | nil => intro fs id st ts _ h _ _; simp [lookupJob] at h
  | cons e rest ih =>
    obtain ⟨k, v⟩ := e
    intro fs id st ts hnd hl hts hold
    simp only [List.map_cons, List.nodup_cons] at hnd
    by_cases hk : k = id
    · subst hk
      simp only [lookupJob, if_pos rfl] at hl
      cases hl
      simp only [sweep, hts, if_pos hold]
      exact sweep_lookup_none now rest _ _ hnd.1
    · simp only [lookupJob, if_neg hk] at hl
      cases hv : v.timestamp with
      | some ts2 =>
        by_cases hold2 : now - ts2 > 3600000
        · simp [sweep, hv, hold2, ih _ _ _ _ hnd.2 hl hts hold]
        · simp [sweep, hv, hold2, lookupJob, hk, ih _ _ _ _ hnd.2 hl hts hold]
      | none => simp [sweep, hv, lookupJob, hk, ih _ _ _ _ hnd.2 hl hts hold]

theorem sweep_fs_mono (now : Nat) :
    ∀ (t : JobTable) (fs : Files) (p : String), existsSync fs p = false →
      existsSync (sweep now t fs).2 p = false := by
  intro t
  induction t with
  | nil => intro fs p h; simpa [sweep] using h
  | cons e rest ih =>
    obtain ⟨k, v⟩ := e
    intro fs p h
    cases hv : v.timestamp with
    | some ts =>
      by_cases hold : now - ts > 3600000
      · simp [sweep, hv, hold,
          ih _ _ (existsSync_deleteTempFiles_mono v.tempFiles fs p h)]
      · simp [sweep, hv, hold, ih _ _ h]
    | none => simp [sweep, hv, ih _ _ h]

theorem sweep_deletes_evicted_files (now : Nat) :
    ∀ (t : JobTable) (fs : Files) (id : String) (st : UploadStatus) (ts : Nat) (p : String),
      lookupJob t id = some st → st.timestamp = some ts → now - ts > 3600000 →
      p ∈ st.tempFiles → existsSync (sweep now t fs).2 p = false := by
  intro t
  induction t with
  | nil => intro fs id st ts p h _ _ _; simp [lookupJob] at h
  | cons e rest ih =>
    obtain ⟨k, v⟩ := e
    intro fs id st ts p hl hts hold hp
    by_cases hk : k = id
    · subst hk
      simp only [lookupJob, if_pos rfl] at hl
      cases hl
      simp only [sweep, hts, if_pos hold]
      exact sweep_fs_mono now rest _ _
        (existsSync_deleteTempFiles_of_mem v.tempFiles fs p hp)
    · simp only [lookupJob, if_neg hk] at hl
      cases hv : v.timestamp with
      | some ts2 =>
        by_cases hold2 : now - ts2 > 3600000
        · simp [sweep, hv, hold2, ih _ _ _ _ _ hl hts hold hp]
        · simp [sweep, hv, hold2, ih _ _ _ _ _ hl hts hold hp]
      | none => simp [sweep, hv, ih _ _ _ _ _ hl hts hold hp]

theorem waitGo_queries_le (pollEnv : Nat → PollResponse) (uploadId : String)
    (interval : Nat) :
    ∀ (fuel : Nat) (table : JobTable) (attempt : Nat),
      (waitForFileReadyGo pollEnv uploadId interval table attempt fuel).queries ≤ fuel ∧
      (waitForFileReadyGo pollEnv uploadId interval table attempt fuel).sleeps.length
        ≤ fuel := by
  intro fuel
  induction fuel with
  | zero => intro table attempt; simp [waitForFileReadyGo]
  | succ fuel ih =>
    intro table attempt
    simp only [waitForFileReadyGo]
    cases hl : lookupJob table uploadId with
    | none => simp
    | some st =>
      by_cases hst : st.status = JobState.cancelled
      · simp [hst]
      · simp only [if_neg hst]
        cases hpe : pollEnv attempt with
        | abortErr => simp
        | netErr =>
          have h := ih (setJob table uploadId { st with hasAbortController := true })
            (attempt + 1)
          constructor <;> simp <;> omega
        | node onode =>
          cases onode with
          | none =>
            have h := ih (setJob table uploadId { st with hasAbortController := true })
              (attempt + 1)
            constructor <;> simp <;> omega
          | some n =>
            by_cases hub : n.fileStatus = "READY"
            · simp only [if_pos hub]
              cases hx : extractNodeUrl n with
              | some u => simp
              | none =>
                have h := ih (setJob table uploadId { st with hasAbortController := true })
                  (attempt + 1)
                constructor <;> simp <;> omega
            · simp only [if_neg hub]
              have h := ih (setJob table uploadId { st with hasAbortController := true })
                (attempt + 1)
              constructor <;> simp <;> omega

theorem waitGo_timeout_eq (pollEnv : Nat → PollResponse) (uploadId : String)
    (interval : Nat) (hcont : ∀ k, pollContinues (pollEnv k) = true) :
    ∀ (fuel : Nat) (table : JobTable) (st : UploadStatus) (attempt : Nat),
      lookupJob table uploadId = some st →
      ¬ st.status = JobState.cancelled →
      waitForFileReadyGo pollEnv uploadId interval table attempt fuel
        = { result := WaitResult.timeoutErr, queries := fuel,
            sleeps := List.replicate fuel interval,
            table := if fuel = 0 then table
              else setJob table uploadId { st with hasAbortController := true } } := by
  intro fuel
  induction fuel with
  | zero => intro table st attempt hl hst; simp [waitForFileReadyGo]
  | succ fuel ih =>
    intro table st attempt hl hst
    have hl2 : lookupJob (setJob table uploadId { st with hasAbortController := true })
        uploadId = some { st with hasAbortController := true } :=
      lookupJob_setJob_self _ _ _
    have hst2 : ¬ ({ st with hasAbortController := true } : UploadStatus).status
        = JobState.cancelled := hst
    have hstable : setJob (setJob table uploadId { st with hasAbortController := true })
        uploadId { st with hasAbortController := true }
          = setJob table uploadId { st with hasAbortController := true } :=
      setJob_self_of_lookup _ _ _ hl2
    simp only [waitForFileReadyGo, hl, if_neg hst]
    cases hpe : pollEnv attempt with
    | abortErr =>
      exfalso
      have h := hcont attempt
      rw [hpe] at h
      simp [pollContinues] at h
    | netErr =>
      rw [ih _ _ (attempt + 1) hl2 hst2]
      cases fuel with
      | zero => simp [List.replicate]
      | succ fuel => simp [hstable, List.replicate_succ]
    | node onode =>
      cases onode with
      | none =>
        rw [ih _ _ (attempt + 1) hl2 hst2]
        cases fuel with
        | zero => simp [List.replicate]
        | succ fuel => simp [hstable, List.replicate_succ]
      | some n =>
        by_cases hub : n.fileStatus = "READY"
        · have h := hcont attempt
          rw [hpe] at h
          simp only [pollContinues, if_pos hub] at h
          have hx : extractNodeUrl n = none := Option.isNone_iff_eq_none.mp h
          simp only [if_pos hub, hx]
          rw [ih _ _ (attempt + 1) hl2 hst2]
          cases fuel with
          | zero => simp [List.replicate]
          | succ fuel => simp [hstable, List.replicate_succ]
        · simp only [if_neg hub]
          rw [ih _ _ (attempt + 1) hl2 hst2]
          cases fuel with
          | zero => simp [List.replicate]
          | succ fuel => simp [hstable, List.replicate_succ]

/-- Entry-point version of `waitGo_timeout_eq` for a non-cancelled job. -/
theorem waitForFileReady_timeout_eq (pollEnv : Nat → PollResponse) (uploadId : String)
    (table : JobTable) (st : UploadStatus) (maxAttempts interval : Nat)
    (hl : lookupJob table uploadId = some st)
    (hst : ¬ st.status = JobState.cancelled)
    (hcont : ∀ k, pollContinues (pollEnv k) = true) :
    waitForFileReady pollEnv uploadId table maxAttempts interval
      = { result := WaitResult.timeoutErr, queries := maxAttempts,
          sleeps := List.replicate maxAttempts interval,
          table := if maxAttempts = 0 then table
            else setJob table uploadId { st with hasAbortController := true } } :=
  waitGo_timeout_eq pollEnv uploadId interval hcont maxAttempts table st 0 hl hst

theorem setJob_setJob (t : JobTable) (id : String) (v w : UploadStatus) :
    setJob (setJob t id v) id w = setJob t id w := by
  induction t with
  | nil => simp [setJob]
  | cons e rest ih =>
    obtain ⟨k, z⟩ := e
    by_cases hk : k = id
    · subst hk
      simp [setJob]
    · simp [setJob, hk, ih]

/-! ## Claim C1 -/

/-- A finished job, used by several concrete runs below. -/
def jobCompleted : UploadStatus :=
  { id := "job-1", status := JobState.completed, progress := 100,
    originalFilename := "logo.png", url := some "https://cdn.example/logo.png",
    ftype := "image", timestamp := some 1000, tempFiles := [] }

/-- C1, counterexample.  The claim says a cancel request on an
already-terminal job is a no-op leaving `status`, `url` and `error`
unchanged.  On the code, cancelling the completed job `jobCompleted`
overwrites its status to `cancelled` and its error field to the fixed
cancellation message — the cancel endpoint has no terminal-state guard. -/
theorem C1_counterexample_cancel_mutates_terminal :
    jobCompleted.status.isTerminal = true ∧
    (lookupJob (cancelUpload [("job-1", jobCompleted)] [] "job-1").table "job-1").map
        (fun s => s.status) = some JobState.cancelled ∧
    (lookupJob (cancelUpload [("job-1", jobCompleted)] [] "job-1").table "job-1").map
        (fun s => s.errorMsg) = some (some "Upload cancelled by user") ∧
    ¬ JobState.cancelled = jobCompleted.status ∧
    ¬ (some "Upload cancelled by user" : Option String) = jobCompleted.errorMsg := by
  decide

/-- C1, amended: a cancel request on any registered job — terminal or not
— overwrites its status to `cancelled` and its error field to the fixed
message (all other fields, `url` included, unchanged), deletes its temp
files, and replies success; terminal states are not protected. -/
theorem C1_cancel_always_overwrites (table : JobTable) (fs : Files)
    (uploadId : String) (st : UploadStatus)
    (hid : ¬ uploadId = "") (hjob : lookupJob table uploadId = some st) :
    lookupJob (cancelUpload table fs uploadId).table uploadId
      = some { st with status := JobState.cancelled,
                       errorMsg := some "Upload cancelled by user" } ∧
    (cancelUpload table fs uploadId).resp
      = { code := 200, body := RespBody.success "Upload cancelled" } ∧
    (cancelUpload table fs uploadId).fs = deleteTempFiles fs st.tempFiles := by
  refine ⟨?_, ?_, ?_⟩ <;> simp [cancelUpload, hid, hjob, lookupJob_setJob_self]

/-- Witness for `C1_cancel_always_overwrites` at a completed job. -/
theorem C1_cancel_always_overwrites_witness :
    (¬ "job-1" = "") ∧
    lookupJob [("job-1", jobCompleted)] "job-1" = some jobCompleted ∧
    lookupJob (cancelUpload [("job-1", jobCompleted)] [] "job-1").table "job-1"
      = some { jobCompleted with status := JobState.cancelled,
                                 errorMsg := some "Upload cancelled by user" } :=
  ⟨by decide, by decide,
    (C1_cancel_always_overwrites [("job-1", jobCompleted)] [] "job-1" jobCompleted
      (by decide) (by decide)).1⟩

/-! ## Claim C2 -/

/-- C2: the cancel endpoint contract.  An unknown id gets a 404 and
nothing is touched.  A registered non-terminal job has its abort handle
signalled exactly when one is installed, is overwritten to `cancelled`
with the fixed message, its temp files all end up absent, and the reply
is a success. -/
theorem C2_cancel_contract (table : JobTable) (fs : Files) (uploadId : String) :
    (lookupJob table uploadId = none →
      (cancelUpload table fs uploadId).resp
          = { code := 404, body := RespBody.errMsg "Upload not found" } ∧
      (cancelUpload table fs uploadId).table = table ∧
      (cancelUpload table fs uploadId).fs = fs) ∧
    (∀ st : UploadStatus, ¬ uploadId = "" → lookupJob table uploadId = some st →
      st.status.isTerminal = false →
      (cancelUpload table fs uploadId).aborted = st.hasAbortController ∧
      lookupJob (cancelUpload table fs uploadId).table uploadId
        = some { st with status := JobState.cancelled,
                         errorMsg := some "Upload cancelled by user" } ∧
      (∀ p, p ∈ st.tempFiles →
        existsSync (cancelUpload table fs uploadId).fs p = false) ∧
      (cancelUpload table fs uploadId).resp
        = { code := 200, body := RespBody.success "Upload cancelled" }) := by
  constructor
  · intro h
    by_cases hid : uploadId = "" <;> simp [cancelUpload, hid, h]
  · intro st hid hjob _hterm
    refine ⟨?_, ?_, ?_, ?_⟩
    · simp [cancelUpload, hid, hjob]
    · simp [cancelUpload, hid, hjob, lookupJob_setJob_self]
    · intro p hp
      simp only [cancelUpload, if_neg hid, hjob]
      exact existsSync_deleteTempFiles_of_mem st.tempFiles fs p hp
    · simp [cancelUpload, hid, hjob]

/-- An in-flight job with temp files and an installed abort controller. -/
def jobActive : UploadStatus :=
  { id := "job-2", status := JobState.uploading, progress := 60,
    originalFilename := "clip.mp4", ftype := "video", timestamp := some 2000,
    hasAbortController := true,
    tempFiles := ["temp/raw.mp4", "temp/compressed-raw.mp4"] }

/-- The temp directory backing `jobActive`. -/
def fsActive : Files := [("temp/raw.mp4", "v"), ("temp/compressed-raw.mp4", "w")]

/-- Witness for `C2_cancel_contract`: cancelling the in-flight `jobActive`
signals its handle and leaves its first temp file absent. -/
theorem C2_cancel_contract_witness :
    lookupJob [("job-2", jobActive)] "job-2" = some jobActive ∧
    jobActive.status.isTerminal = false ∧
    (cancelUpload [("job-2", jobActive)] fsActive "job-2").aborted = true ∧
    existsSync (cancelUpload [("job-2", jobActive)] fsActive "job-2").fs
      "temp/raw.mp4" = false := by
  have h := (C2_cancel_contract [("job-2", jobActive)] fsActive "job-2").2 jobActive
    (by decide) (by decide) (by decide)
  exact ⟨by decide, by decide, h.1, h.2.2.1 "temp/raw.mp4" (by decide)⟩

/-! ## Claim C9 -/

/-- C9, counterexample.  The claim says the proxy returns the platform's
JSON verbatim and 500 only on transport failure.  Here the platform does
reply — no transport failure — with a non-success HTTP status and a JSON
body, and the proxy still answers the generic 500 instead of that body. -/
theorem C9_counterexample_non_ok_is_500 :
    (shopifyAdminProxy "query-body" (ProxyEnv.replied false
        (Except.ok "platform-error-json"))).1
      = { code := 500, body := RespBody.errMsg "Internal server error" } ∧
    ¬ ({ code := 500, body := RespBody.errMsg "Internal server error" } : HttpResponse)
      = { code := 200, body := RespBody.jsonData "platform-error-json" } := by
  exact ⟨rfl, by decide⟩

/-- C9, amended: the proxy always forwards the raw body with the
server-held token; it echoes the platform's JSON only when the platform
replied with a success status and parseable JSON; it answers the generic
500 on a transport failure, on any non-success platform status, and on a
JSON parse failure. -/
theorem C9_proxy_forwarding (reqBody : String) (env : ProxyEnv) :
    (shopifyAdminProxy reqBody env).2 = { payload := reqBody, hasToken := true } ∧
    (∀ d, env = ProxyEnv.replied true (Except.ok d) →
      (shopifyAdminProxy reqBody env).1
        = { code := 200, body := RespBody.jsonData d }) ∧
    (∀ m, env = ProxyEnv.transportErr m →
      (shopifyAdminProxy reqBody env).1
        = { code := 500, body := RespBody.errMsg "Internal server error" }) ∧
    (∀ b, env = ProxyEnv.replied false b →
      (shopifyAdminProxy reqBody env).1
        = { code := 500, body := RespBody.errMsg "Internal server error" }) ∧
    (∀ m, env = ProxyEnv.replied true (Except.error m) →
      (shopifyAdminProxy reqBody env).1
        = { code := 500, body := RespBody.errMsg "Internal server error" }) := by
  refine ⟨?_, ?_, ?_, ?_, ?_⟩
  · cases env with
    | transportErr m => rfl
    | replied ok b => cases ok <;> cases b <;> rfl
  · intro d h; subst h; rfl
  · intro m h; subst h; rfl
  · intro b h; subst h; cases b <;> rfl
  · intro m h; subst h; rfl

/-- Witness for `C9_proxy_forwarding` on a successful platform reply. -/
theorem C9_proxy_forwarding_witness :
    (shopifyAdminProxy "mutation-body" (ProxyEnv.replied true (Except.ok "data-json"))).1
      = { code := 200, body := RespBody.jsonData "data-json" } :=
  (C9_proxy_forwarding "mutation-body"
    (ProxyEnv.replied true (Except.ok "data-json"))).2.1 "data-json" rfl

/-! ## Claim C10 -/

/-- C10: reaching a terminal state does not remove the record.  The
status endpoint keeps answering 200 with the stored record; a cancel
keeps the record (merely overwriting it to `cancelled`); the sweep leaves
a job alone while its age is within the one-hour window and removes it —
making the status endpoint answer 404 — once its age exceeds it. -/
theorem C10_record_retained_until_sweep (table : JobTable) (fs : Files)
    (uploadId : String) (st : UploadStatus) (now ts : Nat)
    (hid : ¬ uploadId = "") (hjob : lookupJob table uploadId = some st) :
    getUploadStatus table uploadId = { code := 200, body := RespBody.record st } ∧
    lookupJob (cancelUpload table fs uploadId).table uploadId
      = some { st with status := JobState.cancelled,
                       errorMsg := some "Upload cancelled by user" } ∧
    getUploadStatus (cancelUpload table fs uploadId).table uploadId
      = { code := 200, body := RespBody.record
            { st with status := JobState.cancelled,
                      errorMsg := some "Upload cancelled by user" } } ∧
    (st.timestamp = some ts → ¬ now - ts > 3600000 →
      getUploadStatus (sweep now table fs).1 uploadId
        = { code := 200, body := RespBody.record st }) ∧
    ((table.map Prod.fst).Nodup → st.timestamp = some ts → now - ts > 3600000 →
      getUploadStatus (sweep now table fs).1 uploadId
        = { code := 404, body := RespBody.errMsg "Upload not found" }) := by
  refine ⟨?_, ?_, ?_, ?_, ?_⟩
  · simp [getUploadStatus, hid, hjob]
  · simp [cancelUpload, hid, hjob, lookupJob_setJob_self]
  · simp [cancelUpload, getUploadStatus, hid, hjob, lookupJob_setJob_self]
  · intro hts hyoung
    simp [getUploadStatus, hid, sweep_keeps_young now table fs uploadId st ts hjob hts hyoung]
  · intro hnd hts hold
    simp [getUploadStatus, hid, sweep_evicts_old now table fs uploadId st ts hnd hjob hts hold]

/-- Witness for `C10_record_retained_until_sweep`: the completed job is
still served after cancellation, survives a sweep at 35 minutes of age,
and is gone after a sweep at 2 hours of age. -/
theorem C10_record_retained_until_sweep_witness :
    getUploadStatus [("job-1", jobCompleted)] "job-1"
      = { code := 200, body := RespBody.record jobCompleted } ∧
    getUploadStatus (sweep 2101000 [("job-1", jobCompleted)] []).1 "job-1"
      = { code := 200, body := RespBody.record jobCompleted } ∧
    getUploadStatus (sweep 7201000 [("job-1", jobCompleted)] []).1 "job-1"
      = { code := 404, body := RespBody.errMsg "Upload not found" } := by
  have h := C10_record_retained_until_sweep [("job-1", jobCompleted)] [] "job-1"
    jobCompleted 2101000 1000 (by decide) (by decide)
  have h2 := C10_record_retained_until_sweep [("job-1", jobCompleted)] [] "job-1"
    jobCompleted 7201000 1000 (by decide) (by decide)
  exact ⟨h.1, h.2.2.2.1 (by decide) (by decide),
    h2.2.2.2.2 (by decide) (by decide) (by decide)⟩

/-! ## Claim C5 -/

/-- C5: an oversize upload (10MB limit for images, 100MB in the tracker
variant / 50MB in the simple variant for everything else) is rejected
with a 400 before any network call is issued — in the tracker variant
with the filesystem untouched as well. -/
theorem C5_oversize_rejected_before_network (table : JobTable) (fs : Files)
    (f : MFile) (fileType uploadId : String) (st : UploadStatus) (env : UploadReqEnv)
    (hid : ¬ uploadId = "") (hjob : lookupJob table uploadId = some st)
    (hsize : f.size > (if fileType = "image" then 10 * 1024 * 1024 else 100 * 1024 * 1024)) :
    ((uploadFileHandler table fs (some f) fileType uploadId env).resp
        = { code := 400, body := RespBody.errMsg (tooLargeMsg fileType) } ∧
      (uploadFileHandler table fs (some f) fileType uploadId env).calls = [] ∧
      (uploadFileHandler table fs (some f) fileType uploadId env).fs = fs ∧
      (lookupJob (uploadFileHandler table fs (some f) fileType uploadId env).table
          uploadId).map (fun s => s.status) = some JobState.error) ∧
    (∀ (g : MFile) (env2 : ServerTs.STEnv),
      g.size > (if fileType = "image" then 10 * 1024 * 1024 else 50 * 1024 * 1024) →
      (ServerTs.uploadFile (some g) fileType env2).1
        = { code := 400, body := RespBody.errMsg (ServerTs.tooLargeMsg fileType) } ∧
      (ServerTs.uploadFile (some g) fileType env2).2 = []) := by
  constructor
  · have hh : hasJob table uploadId = true := by simp [hasJob, hjob]
    refine ⟨?_, ?_, ?_, ?_⟩ <;>
      simp [uploadFileHandler, hid, hh, updateJob, hjob, lookupJob_setJob_self,
        setJob_setJob, hsize]
  · intro g env2 hg
    constructor <;> simp [ServerTs.uploadFile, hg]

/-- A freshly registered image job. -/
def jobFresh : UploadStatus :=
  { id := "job-5", status := JobState.waiting, progress := 0,
    originalFilename := "big.png", ftype := "image", timestamp := some 0,
    tempFiles := [] }

/-- An 11MB image file as multer hands it to the handler. -/
def bigImage : MFile :=
  { path := "temp/1-big.png", originalname := "big.png", size := 11 * 1024 * 1024,
    mimetype := "image/png", filename := "1-big.png" }

/-- An oracle whose network values are never consulted on rejected runs. -/
def envIdle : UploadReqEnv :=
  { compress := CompressOutcome.ok "c",
    net := { stagedResp := Except.ok none, s3Resp := Except.ok (true, ""),
             fcResp := Except.ok {}, pollEnv := fun _ => PollResponse.netErr } }

/-- An idle oracle for the simple variant. -/
def stEnvIdle : ServerTs.STEnv :=
  { genericFcDirect := Except.ok none, stagedResp := Except.ok none,
    s3Resp := Except.ok (true, ""), fcResp := Except.ok {},
    pollEnv := fun _ => ServerTs.PollOutcome.node none }

/-- Witness for `C5_oversize_rejected_before_network`: an 11MB image is
rejected by both variants with no network call. -/
theorem C5_oversize_rejected_before_network_witness :
    lookupJob [("job-5", jobFresh)] "job-5" = some jobFresh ∧
    bigImage.size > 10 * 1024 * 1024 ∧
    (uploadFileHandler [("job-5", jobFresh)] [("temp/1-big.png", "bytes")]
        (some bigImage) "image" "job-5" envIdle).calls = [] ∧
    (ServerTs.uploadFile (some bigImage) "image" stEnvIdle).2 = [] := by
  have h := C5_oversize_rejected_before_network [("job-5", jobFresh)]
    [("temp/1-big.png", "bytes")] bigImage "image" "job-5" jobFresh envIdle
    (by decide) (by decide) (by decide)
  exact ⟨by decide, by decide, h.1.2.1, (h.2 bigImage stEnvIdle (by decide)).2⟩

/-! ## Full-run lemmas for the tracker handler -/

/-- Complete characterization of a tracker-variant image upload whose
`fileCreate` response carries a direct (truthy) `image.url`: the job is
completed with that URL, the two temp files are removed, and exactly the
three protocol calls — no status poll — are issued. -/
theorem handler_image_direct_eq (table : JobTable) (fs : Files) (f : MFile)
    (uploadId : String) (st : UploadStatus) (c : String) (net : NetEnv)
    (tg : StagedTarget) (b : String) (ff : FCFile) (ue : List String) (u : String)
    (hid : ¬ uploadId = "") (hjob : lookupJob table uploadId = some st)
    (hsize : ¬ f.size > 10 * 1024 * 1024)
    (hstaged : net.stagedResp = Except.ok (some tg))
    (hs3 : net.s3Resp = Except.ok (true, b))
    (hfc : net.fcResp = Except.ok { firstFile := some ff, userErrors := ue })
    (hurl : ff.imageUrl = some u) (hu : ¬ u = "") :
    uploadFileHandler table fs (some f) "image" uploadId
        { compress := CompressOutcome.ok c, net := net }
      = { table := setJob table uploadId
            { st with
                tempFiles := st.tempFiles ++ [f.path] ++ ["temp/compressed-" ++ f.filename],
                status := JobState.completed, progress := 100,
                hasAbortController := true, url := some u },
          fs := cleanupPair (writeFile fs ("temp/compressed-" ++ f.filename) c)
            f.path ("temp/compressed-" ++ f.filename),
          resp := { code := 200, body := RespBody.urlOf u },
          calls := [NetCall.stagedUploadsCreate, NetCall.s3Upload, NetCall.fileCreate] } := by
  have hh : hasJob table uploadId = true := by simp [hasJob, hjob]
  simp [uploadFileHandler, afterCompress, uploadImageToShopify, createStagedUpload,
    uploadFileToS3, jobCancelled, updateJob, hid, hh, hjob, hsize, hstaged, hs3, hfc,
    hurl, hu, lookupJob_setJob_self, setJob_setJob, directUrl, jsTruthy]

/-- Complete characterization of a tracker-variant video upload whose
`fileCreate` response carries a first source URL: completed with that
URL, temp files removed, no status poll. -/
theorem handler_video_direct_eq (table : JobTable) (fs : Files) (f : MFile)
    (uploadId : String) (st : UploadStatus) (c : String) (net : NetEnv)
    (tg : StagedTarget) (b : String) (ff : FCFile) (ue : List String) (u : String)
    (us : List String)
    (hid : ¬ uploadId = "") (hjob : lookupJob table uploadId = some st)
    (hsize : ¬ f.size > 100 * 1024 * 1024)
    (hstaged : net.stagedResp = Except.ok (some tg))
    (hs3 : net.s3Resp = Except.ok (true, b))
    (hfc : net.fcResp = Except.ok { firstFile := some ff, userErrors := ue })
    (hurl : ff.sources = u :: us) (hu : ¬ u = "") :
    uploadFileHandler table fs (some f) "video" uploadId
        { compress := CompressOutcome.ok c, net := net }
      = { table := setJob table uploadId
            { st with
                tempFiles := st.tempFiles ++ [f.path] ++ ["temp/compressed-" ++ f.filename],
                status := JobState.completed, progress := 100,
                hasAbortController := true, url := some u },
          fs := cleanupPair (writeFile fs ("temp/compressed-" ++ f.filename) c)
            f.path ("temp/compressed-" ++ f.filename),
          resp := { code := 200, body := RespBody.urlOf u },
          calls := [NetCall.stagedUploadsCreate, NetCall.s3Upload, NetCall.fileCreate] } := by
  have hh : hasJob table uploadId = true := by simp [hasJob, hjob]
  simp [uploadFileHandler, afterCompress, uploadVideoToShopify, jobCancelled,
    updateJob, hid, hh, hjob, hsize, hstaged, hs3, hfc, hurl, hu,
    lookupJob_setJob_self, setJob_setJob, directUrl, jsTruthy]

/-- Complete characterization of a tracker-variant generic-file upload
whose `fileCreate` response carries a direct `url`: completed with that
URL, temp files removed, no status poll.  The non-image, non-video branch
copies the original bytes instead of transforming them. -/
theorem handler_generic_direct_eq (table : JobTable) (fs : Files) (f : MFile)
    (uploadId fileType : String) (st : UploadStatus) (c0 : String) (env : UploadReqEnv)
    (tg : StagedTarget) (b : String) (ff : FCFile) (ue : List String) (u : String)
    (hft1 : ¬ fileType = "image") (hft2 : ¬ fileType = "video")
    (hid : ¬ uploadId = "") (hjob : lookupJob table uploadId = some st)
    (hsize : ¬ f.size > 100 * 1024 * 1024)
    (hsrc : lookupFile fs f.path = some c0)
    (hstaged : env.net.stagedResp = Except.ok (some tg))
    (hs3 : env.net.s3Resp = Except.ok (true, b))
    (hfc : env.net.fcResp = Except.ok { firstFile := some ff, userErrors := ue })
    (hurl : ff.url = some u) (hu : ¬ u = "") :
    uploadFileHandler table fs (some f) fileType uploadId env
      = { table := setJob table uploadId
            { st with
                tempFiles := st.tempFiles ++ [f.path] ++ ["temp/compressed-" ++ f.filename],
                status := JobState.completed, progress := 100,
                hasAbortController := true, url := some u },
          fs := cleanupPair (writeFile fs ("temp/compressed-" ++ f.filename) c0)
            f.path ("temp/compressed-" ++ f.filename),
          resp := { code := 200, body := RespBody.urlOf u },
          calls := [NetCall.stagedUploadsCreate, NetCall.s3Upload, NetCall.fileCreate] } := by
  have hh : hasJob table uploadId = true := by simp [hasJob, hjob]
  simp [uploadFileHandler, afterCompress, uploadGenericFileToShopify, createStagedUpload,
    uploadFileToS3, jobCancelled, updateJob, hft1, hft2, hid, hh, hjob, hsize, hsrc,
    hstaged, hs3, hfc, hurl, hu, lookupJob_setJob_self, setJob_setJob, directUrl, jsTruthy]

/-- Complete characterization of a tracker-variant image upload that
enters ready-polling (no direct URL, truthy file id) and never observes a
READY-with-URL node: the loop issues exactly 30 status queries separated
by 5000 ms sleeps, fails with the timeout message, and the handler marks
the job `error` with that message, answers 500, and removes the temp
files. -/
theorem handler_image_timeout_eq (table : JobTable) (fs : Files) (f : MFile)
    (uploadId : String) (st : UploadStatus) (c : String) (net : NetEnv)
    (tg : StagedTarget) (b : String) (ff : FCFile) (ue : List String) (fid : String)
    (hid : ¬ uploadId = "") (hjob : lookupJob table uploadId = some st)
    (hsize : ¬ f.size > 10 * 1024 * 1024)
    (hstaged : net.stagedResp = Except.ok (some tg))
    (hs3 : net.s3Resp = Except.ok (true, b))
    (hfc : net.fcResp = Except.ok { firstFile := some ff, userErrors := ue })
    (hurl : ff.imageUrl = none) (hfid : ff.id = some fid) (hfn : ¬ fid = "")
    (hcont : ∀ k, pollContinues (net.pollEnv k) = true) :
    uploadFileHandler table fs (some f) "image" uploadId
        { compress := CompressOutcome.ok c, net := net }
      = { table := setJob table uploadId
            { st with
                tempFiles := st.tempFiles ++ [f.path] ++ ["temp/compressed-" ++ f.filename],
                status := JobState.error, progress := 80,
                hasAbortController := true,
                errorMsg := some "The file did not become ready in the allotted time." },
          fs := cleanupPair (writeFile fs ("temp/compressed-" ++ f.filename) c)
            f.path ("temp/compressed-" ++ f.filename),
          resp := { code := 500, body := RespBody.errMsg "Error uploading file" },
          calls := [NetCall.stagedUploadsCreate, NetCall.s3Upload, NetCall.fileCreate]
            ++ List.replicate 30 NetCall.fileStatusQuery } := by
  have hh : hasJob table uploadId = true := by simp [hasJob, hjob]
  have hw := waitForFileReady_timeout_eq net.pollEnv uploadId
    (setJob table uploadId
      { st with
          tempFiles := st.tempFiles ++ [f.path, "temp/compressed-" ++ f.filename],
          status := JobState.uploading, progress := 80, hasAbortController := true })
    { st with
        tempFiles := st.tempFiles ++ [f.path, "temp/compressed-" ++ f.filename],
        status := JobState.uploading, progress := 80, hasAbortController := true }
    30 5000 (lookupJob_setJob_self _ _ _) (by simp) hcont
  simp [uploadFileHandler, afterCompress, uploadImageToShopify, createStagedUpload,
    uploadFileToS3, jobCancelled, updateJob, hid, hh, hjob, hsize, hstaged, hs3, hfc,
    hurl, hfid, hfn, lookupJob_setJob_self, setJob_setJob, directUrl, jsTruthy, hw,
    WaitResult.toExcept]

/-- Complete characterization of a tracker-variant image upload whose
`stagedUploadsCreate` call yields no usable target: the job ends in
`error` after exactly one network call — the failed one is not retried —
and the temp files are removed by the final cleanup block. -/
theorem handler_image_stagedFail_eq (table : JobTable) (fs : Files) (f : MFile)
    (uploadId : String) (st : UploadStatus) (c : String) (net : NetEnv)
    (hid : ¬ uploadId = "") (hjob : lookupJob table uploadId = some st)
    (hsize : ¬ f.size > 10 * 1024 * 1024)
    (hstaged : net.stagedResp = Except.ok none) :
    uploadFileHandler table fs (some f) "image" uploadId
        { compress := CompressOutcome.ok c, net := net }
      = { table := setJob table uploadId
            { st with
                tempFiles := st.tempFiles ++ [f.path, "temp/compressed-" ++ f.filename],
                status := JobState.error, progress := 30,
                hasAbortController := true,
                errorMsg := some "Failed to get download URL" },
          fs := cleanupPair (writeFile fs ("temp/compressed-" ++ f.filename) c)
            f.path ("temp/compressed-" ++ f.filename),
          resp := { code := 500, body := RespBody.errMsg "Error uploading file" },
          calls := [NetCall.stagedUploadsCreate] } := by
  have hh : hasJob table uploadId = true := by simp [hasJob, hjob]
  simp [uploadFileHandler, afterCompress, uploadImageToShopify, createStagedUpload,
    jobCancelled, updateJob, hid, hh, hjob, hsize, hstaged,
    lookupJob_setJob_self, setJob_setJob]

/-! ## Claim C3 -/

/-- C3: when the `fileCreate` response already embeds a resolved URL —
the image URL, the first video source URL, or the generic file URL — the
handler answers with that URL, the job record ends `completed` carrying
it, and no file-status poll is ever issued; likewise in the simple
variant's endpoint. -/
theorem C3_direct_url_completes_without_polling :
    (∀ (table : JobTable) (fs : Files) (f : MFile) (uploadId : String)
        (st : UploadStatus) (c : String) (net : NetEnv) (tg : StagedTarget)
        (b : String) (ff : FCFile) (ue : List String) (u : String),
      ¬ uploadId = "" → lookupJob table uploadId = some st →
      ¬ f.size > 10 * 1024 * 1024 →
      net.stagedResp = Except.ok (some tg) → net.s3Resp = Except.ok (true, b) →
      net.fcResp = Except.ok { firstFile := some ff, userErrors := ue } →
      ff.imageUrl = some u → ¬ u = "" →
      (uploadFileHandler table fs (some f) "image" uploadId
          { compress := CompressOutcome.ok c, net := net }).resp
        = { code := 200, body := RespBody.urlOf u } ∧
      (lookupJob (uploadFileHandler table fs (some f) "image" uploadId
          { compress := CompressOutcome.ok c, net := net }).table uploadId).map
          (fun s => (s.status, s.url)) = some (JobState.completed, some u) ∧
      NetCall.fileStatusQuery ∉ (uploadFileHandler table fs (some f) "image" uploadId
          { compress := CompressOutcome.ok c, net := net }).calls) ∧
    (∀ (table : JobTable) (fs : Files) (f : MFile) (uploadId : String)
        (st : UploadStatus) (c : String) (net : NetEnv) (tg : StagedTarget)
        (b : String) (ff : FCFile) (ue : List String) (u : String) (us : List String),
      ¬ uploadId = "" → lookupJob table uploadId = some st →
      ¬ f.size > 100 * 1024 * 1024 →
      net.stagedResp = Except.ok (some tg) → net.s3Resp = Except.ok (true, b) →
      net.fcResp = Except.ok { firstFile := some ff, userErrors := ue } →
      ff.sources = u :: us → ¬ u = "" →
      (uploadFileHandler table fs (some f) "video" uploadId
          { compress := CompressOutcome.ok c, net := net }).resp
        = { code := 200, body := RespBody.urlOf u } ∧
      (lookupJob (uploadFileHandler table fs (some f) "video" uploadId
          { compress := CompressOutcome.ok c, net := net }).table uploadId).map
          (fun s => (s.status, s.url)) = some (JobState.completed, some u) ∧
      NetCall.fileStatusQuery ∉ (uploadFileHandler table fs (some f) "video" uploadId
          { compress := CompressOutcome.ok c, net := net }).calls) ∧
    (∀ (table : JobTable) (fs : Files) (f : MFile) (uploadId fileType : String)
        (st : UploadStatus) (c0 : String) (env : UploadReqEnv) (tg : StagedTarget)
        (b : String) (ff : FCFile) (ue : List String) (u : String),
      ¬ fileType = "image" → ¬ fileType = "video" →
      ¬ uploadId = "" → lookupJob table uploadId = some st →
      ¬ f.size > 100 * 1024 * 1024 → lookupFile fs f.path = some c0 →
      env.net.stagedResp = Except.ok (some tg) → env.net.s3Resp = Except.ok (true, b) →
      env.net.fcResp = Except.ok { firstFile := some ff, userErrors := ue } →
      ff.url = some u → ¬ u = "" →
      (uploadFileHandler table fs (some f) fileType uploadId env).resp
        = { code := 200, body := RespBody.urlOf u } ∧
      (lookupJob (uploadFileHandler table fs (some f) fileType uploadId env).table
          uploadId).map (fun s => (s.status, s.url))
        = some (JobState.completed, some u) ∧
      NetCall.fileStatusQuery ∉ (uploadFileHandler table fs (some f) fileType uploadId
          env).calls) ∧
    (∀ (g : MFile) (env2 : ServerTs.STEnv) (tg : StagedTarget) (b : String)
        (ff : FCFile) (ue : List String) (u : String),
      ¬ g.size > 10 * 1024 * 1024 →
      env2.stagedResp = Except.ok (some tg) → env2.s3Resp = Except.ok (true, b) →
      env2.fcResp = Except.ok { firstFile := some ff, userErrors := ue } →
      ff.imageUrl = some u → ¬ u = "" →
      (ServerTs.uploadFile (some g) "image" env2).1
        = { code := 200, body := RespBody.urlOf u } ∧
      NetCall.fileStatusQuery ∉ (ServerTs.uploadFile (some g) "image" env2).2) := by
  refine ⟨?_, ?_, ?_, ?_⟩
  · intro table fs f uploadId st c net tg b ff ue u hid hjob hsize hstaged hs3 hfc hurl hu
    rw [handler_image_direct_eq table fs f uploadId st c net tg b ff ue u hid hjob hsize
      hstaged hs3 hfc hurl hu]
    exact ⟨rfl, by simp [lookupJob_setJob_self], by simp⟩
  · intro table fs f uploadId st c net tg b ff ue u us hid hjob hsize hstaged hs3 hfc hurl hu
    rw [handler_video_direct_eq table fs f uploadId st c net tg b ff ue u us hid hjob hsize
      hstaged hs3 hfc hurl hu]
    exact ⟨rfl, by simp [lookupJob_setJob_self], by simp⟩
  · intro table fs f uploadId fileType st c0 env tg b ff ue u hft1 hft2 hid hjob hsize
      hsrc hstaged hs3 hfc hurl hu
    rw [handler_generic_direct_eq table fs f uploadId fileType st c0 env tg b ff ue u
      hft1 hft2 hid hjob hsize hsrc hstaged hs3 hfc hurl hu]
    exact ⟨rfl, by simp [lookupJob_setJob_self], by simp⟩
  · intro g env2 tg b ff ue u hsize hstaged hs3 hfc hurl hu
    constructor <;>
      simp [ServerTs.uploadFile, hsize, hstaged, hs3, hfc, hurl, hu, directUrl, jsTruthy]

/-- A small image job/file/oracle triple whose `fileCreate` answer embeds
the resolved URL. -/
def jobImg : UploadStatus :=
  { id := "job-3", status := JobState.waiting, progress := 0,
    originalFilename := "pic.png", ftype := "image", timestamp := some 10,
    tempFiles := [] }

def smallImage : MFile :=
  { path := "temp/2-pic.png", originalname := "pic.png", size := 1000,
    mimetype := "image/png", filename := "2-pic.png" }

def netDirectImg : NetEnv :=
  { stagedResp := Except.ok (some { url := "https://bucket", resourceUrl := "https://resource" }),
    s3Resp := Except.ok (true, ""),
    fcResp := Except.ok
      { firstFile := some { id := some "gid", imageUrl := some "https://cdn.example/pic.png" },
        userErrors := [] },
    pollEnv := fun _ => PollResponse.netErr }

/-- Witness for `C3_direct_url_completes_without_polling` on a concrete
image upload. -/
theorem C3_direct_url_completes_without_polling_witness :
    (uploadFileHandler [("job-3", jobImg)] [("temp/2-pic.png", "raw")] (some smallImage)
        "image" "job-3" { compress := CompressOutcome.ok "small", net := netDirectImg }).resp
      = { code := 200, body := RespBody.urlOf "https://cdn.example/pic.png" } ∧
    NetCall.fileStatusQuery ∉ (uploadFileHandler [("job-3", jobImg)]
        [("temp/2-pic.png", "raw")] (some smallImage) "image" "job-3"
        { compress := CompressOutcome.ok "small", net := netDirectImg }).calls := by
  have h := C3_direct_url_completes_without_polling.1 [("job-3", jobImg)]
    [("temp/2-pic.png", "raw")] smallImage "job-3" jobImg "small" netDirectImg
    { url := "https://bucket", resourceUrl := "https://resource" } ""
    { id := some "gid", imageUrl := some "https://cdn.example/pic.png" } []
    "https://cdn.example/pic.png" (by decide) (by decide) (by decide) rfl rfl rfl rfl
    (by decide)
  exact ⟨h.1, h.2.2⟩

/-! ## Claim C4 -/

/-- C4: the tracker variant's `waitForFileReady` issues at most
`maxAttempts` status queries with at most `maxAttempts` sleeps; when the
job is live and no poll ever yields a READY node with a usable URL (or an
abort), the loop issues exactly `maxAttempts` queries separated by
`interval`-long sleeps and exits with the timeout error; and a full
handler run whose 30 polls (the source default) all fail that way leaves
the job in the `error` state with the timeout message — never parked in
`uploading`. -/
theorem C4_poll_bounded_timeout_errors :
    (∀ (pollEnv : Nat → PollResponse) (uploadId : String) (table : JobTable) (m i : Nat),
      (waitForFileReady pollEnv uploadId table m i).queries ≤ m ∧
      (waitForFileReady pollEnv uploadId table m i).sleeps.length ≤ m) ∧
    (∀ (pollEnv : Nat → PollResponse) (uploadId : String) (table : JobTable)
        (st : UploadStatus) (m i : Nat),
      lookupJob table uploadId = some st → ¬ st.status = JobState.cancelled →
      (∀ k, pollContinues (pollEnv k) = true) →
      (waitForFileReady pollEnv uploadId table m i).result = WaitResult.timeoutErr ∧
      (waitForFileReady pollEnv uploadId table m i).queries = m ∧
      (waitForFileReady pollEnv uploadId table m i).sleeps = List.replicate m i) ∧
    (∀ (table : JobTable) (fs : Files) (f : MFile) (uploadId : String)
        (st : UploadStatus) (c : String) (net : NetEnv) (tg : StagedTarget)
        (b : String) (ff : FCFile) (ue : List String) (fid : String),
      ¬ uploadId = "" → lookupJob table uploadId = some st →
      ¬ f.size > 10 * 1024 * 1024 →
      net.stagedResp = Except.ok (some tg) → net.s3Resp = Except.ok (true, b) →
      net.fcResp = Except.ok { firstFile := some ff, userErrors := ue } →
      ff.imageUrl = none → ff.id = some fid → ¬ fid = "" →
      (∀ k, pollContinues (net.pollEnv k) = true) →
      (uploadFileHandler table fs (some f) "image" uploadId
          { compress := CompressOutcome.ok c, net := net }).resp
        = { code := 500, body := RespBody.errMsg "Error uploading file" } ∧
      (lookupJob (uploadFileHandler table fs (some f) "image" uploadId
          { compress := CompressOutcome.ok c, net := net }).table uploadId).map
          (fun s => (s.status, s.errorMsg))
        = some (JobState.error,
            some "The file did not become ready in the allotted time.") ∧
      (uploadFileHandler table fs (some f) "image" uploadId
          { compress := CompressOutcome.ok c, net := net }).calls
        = [NetCall.stagedUploadsCreate, NetCall.s3Upload, NetCall.fileCreate]
            ++ List.replicate 30 NetCall.fileStatusQuery) := by
  refine ⟨?_, ?_, ?_⟩
  · intro pollEnv uploadId table m i
    exact waitGo_queries_le pollEnv uploadId i m table 0
  · intro pollEnv uploadId table st m i hjob hst hcont
    rw [waitForFileReady_timeout_eq pollEnv uploadId table st m i hjob hst hcont]
    exact ⟨rfl, rfl, rfl⟩
  · intro table fs f uploadId st c net tg b ff ue fid hid hjob hsize hstaged hs3 hfc
      hurl hfid hfn hcont
    rw [handler_image_timeout_eq table fs f uploadId st c net tg b ff ue fid hid hjob
      hsize hstaged hs3 hfc hurl hfid hfn hcont]
    exact ⟨rfl, by simp [lookupJob_setJob_self], rfl⟩

/-- A poll oracle that always reports a still-processing node. -/
def pollProcessing : Nat → PollResponse :=
  fun _ => PollResponse.node (some { fileStatus := "PROCESSING" })

/-- Witness for `C4_poll_bounded_timeout_errors`: three processing-only
polls of the live `jobActive` time out after exactly 3 queries and 3
sleeps of the configured interval. -/
theorem C4_poll_bounded_timeout_errors_witness :
    (waitForFileReady pollProcessing "job-2" [("job-2", jobActive)] 3 2000).result
      = WaitResult.timeoutErr ∧
    (waitForFileReady pollProcessing "job-2" [("job-2", jobActive)] 3 2000).queries = 3 ∧
    (waitForFileReady pollProcessing "job-2" [("job-2", jobActive)] 3 2000).sleeps
      = [2000, 2000, 2000] := by
  have h := C4_poll_bounded_timeout_errors.2.1 pollProcessing "job-2"
    [("job-2", jobActive)] jobActive 3 2000 (by decide) (by decide) (fun k => rfl)
  exact ⟨h.1, h.2.1, by rw [h.2.2]; rfl⟩

/-! ## Claim C6 -/

/-- C6, counterexample.  The claim says every path in `tempResources` is
deleted when the job reaches a terminal state.  An 11MB image is rejected
as oversize: the job is put in the terminal `error` state with the
uploaded original registered in its `tempFiles`, yet the handler returns
before its cleanup block, leaving that file on disk. -/
theorem C6_counterexample_terminal_without_cleanup :
    ((lookupJob (uploadFileHandler [("job-5", jobFresh)] [("temp/1-big.png", "bytes")]
        (some bigImage) "image" "job-5" envIdle).table "job-5").map
        (fun s => (s.status, s.tempFiles))
      = some (JobState.error, ["temp/1-big.png"])) ∧
    JobState.error.isTerminal = true ∧
    existsSync (uploadFileHandler [("job-5", jobFresh)] [("temp/1-big.png", "bytes")]
        (some bigImage) "image" "job-5" envIdle).fs "temp/1-big.png" = true := by
  decide

/-- C6, amended: the guarded per-file delete never raises (deleting an
already-deleted path is not an error) and is idempotent; the sweep
deletes every temp file of the jobs it evicts; and a normally finishing
upload (here: an image completed through a direct URL) ends with both of
its temp files — the uploaded original and the compressed copy, which are
exactly the job's `tempResources` — absent.  Early-return paths such as
the oversize rejection, however, defer deletion to cancellation or the
sweep. -/
theorem C6_cleanup_amended :
    (∀ (fs : Files) (p : String),
      guardedUnlinkE fs p = Except.ok (guardedUnlink fs p)) ∧
    (∀ (fs : Files) (p : String),
      guardedUnlink (guardedUnlink fs p) p = guardedUnlink fs p) ∧
    (∀ (now : Nat) (t : JobTable) (fs : Files) (id : String) (st : UploadStatus)
        (ts : Nat) (p : String),
      lookupJob t id = some st → st.timestamp = some ts → now - ts > 3600000 →
      p ∈ st.tempFiles → existsSync (sweep now t fs).2 p = false) ∧
    (∀ (table : JobTable) (fsx : Files) (f : MFile) (uploadId : String)
        (st : UploadStatus) (c : String) (net : NetEnv) (tg : StagedTarget)
        (b : String) (ff : FCFile) (ue : List String) (u : String),
      ¬ uploadId = "" → lookupJob table uploadId = some st → st.tempFiles = [] →
      ¬ f.size > 10 * 1024 * 1024 →
      net.stagedResp = Except.ok (some tg) → net.s3Resp = Except.ok (true, b) →
      net.fcResp = Except.ok { firstFile := some ff, userErrors := ue } →
      ff.imageUrl = some u → ¬ u = "" →
      (lookupJob (uploadFileHandler table fsx (some f) "image" uploadId
          { compress := CompressOutcome.ok c, net := net }).table uploadId).map
          (fun s => (s.status, s.tempFiles))
        = some (JobState.completed, [f.path, "temp/compressed-" ++ f.filename]) ∧
      existsSync (uploadFileHandler table fsx (some f) "image" uploadId
          { compress := CompressOutcome.ok c, net := net }).fs f.path = false ∧
      existsSync (uploadFileHandler table fsx (some f) "image" uploadId
          { compress := CompressOutcome.ok c, net := net }).fs
        ("temp/compressed-" ++ f.filename) = false) := by
  refine ⟨?_, ?_, ?_, ?_⟩
  · intro fs p
    by_cases h : existsSync fs p = true <;>
      simp [guardedUnlinkE, guardedUnlink, unlinkSync, h]
  · intro fs p
    have h := existsSync_guardedUnlink_self fs p
    generalize hX : guardedUnlink fs p = X at h ⊢
    simp [guardedUnlink, guardedUnlinkE, h]
  · intro now t fs id st ts p hl hts hold hp
    exact sweep_deletes_evicted_files now t fs id st ts p hl hts hold hp
  · intro table fsx f uploadId st c net tg b ff ue u hid hjob hemp hsize hstaged hs3
      hfc hurl hu
    rw [handler_image_direct_eq table fsx f uploadId st c net tg b ff ue u hid hjob
      hsize hstaged hs3 hfc hurl hu]
    simp only [cleanupPair]
    refine ⟨by simp [lookupJob_setJob_self, hemp], ?_, ?_⟩
    · exact existsSync_guardedUnlink_mono _ _ _
        (existsSync_guardedUnlink_self _ f.path)
    · exact existsSync_guardedUnlink_self _ _

/-- Witness for `C6_cleanup_amended`: the completed image upload of the
C3 scenario leaves neither the original nor the compressed copy on disk. -/
theorem C6_cleanup_amended_witness :
    existsSync (uploadFileHandler [("job-3", jobImg)] [("temp/2-pic.png", "raw")]
        (some smallImage) "image" "job-3"
        { compress := CompressOutcome.ok "small", net := netDirectImg }).fs
      "temp/2-pic.png" = false ∧
    existsSync (uploadFileHandler [("job-3", jobImg)] [("temp/2-pic.png", "raw")]
        (some smallImage) "image" "job-3"
        { compress := CompressOutcome.ok "small", net := netDirectImg }).fs
      "temp/compressed-2-pic.png" = false := by
  have h := C6_cleanup_amended.2.2.2 [("job-3", jobImg)] [("temp/2-pic.png", "raw")]
    smallImage "job-3" jobImg "small" netDirectImg
    { url := "https://bucket", resourceUrl := "https://resource" } ""
    { id := some "gid", imageUrl := some "https://cdn.example/pic.png" } []
    "https://cdn.example/pic.png" (by decide) (by decide) (by decide) (by decide)
    rfl rfl rfl rfl (by decide)
  exact ⟨h.2.1, h.2.2⟩

/-! ## Claim C7 -/

/-- C7: a failing local transformation with any non-cancellation error is
indistinguishable from a transformation that succeeded producing the
original bytes — the handler copies the original to the compressed path
and proceeds to the uploading stage rather than failing the job; a
cancellation raised during transformation instead aborts the request with
the 400 cancellation failure before any network call. -/
theorem C7_transform_failure_falls_back (table : JobTable) (fs : Files) (f : MFile)
    (fileType uploadId : String) (st : UploadStatus) (net : NetEnv) (m c0 : String)
    (hft : fileType = "image" ∨ fileType = "video")
    (hid : ¬ uploadId = "") (hjob : lookupJob table uploadId = some st)
    (hsize : ¬ f.size > (if fileType = "image" then 10 * 1024 * 1024
      else 100 * 1024 * 1024))
    (hsrc : lookupFile fs f.path = some c0)
    (hm : ¬ m = "Upload cancelled") :
    uploadFileHandler table fs (some f) fileType uploadId
        { compress := CompressOutcome.thrown m, net := net }
      = uploadFileHandler table fs (some f) fileType uploadId
        { compress := CompressOutcome.ok c0, net := net } ∧
    (uploadFileHandler table fs (some f) fileType uploadId
        { compress := CompressOutcome.thrown "Upload cancelled", net := net }).resp
      = { code := 400, body := RespBody.errMsg "Upload cancelled by user" } ∧
    (uploadFileHandler table fs (some f) fileType uploadId
        { compress := CompressOutcome.thrown "Upload cancelled", net := net }).calls
      = [] := by
  have hh : hasJob table uploadId = true := by simp [hasJob, hjob]
  rcases hft with hft | hft
  · subst hft
    rw [if_pos rfl] at hsize
    refine ⟨?_, ?_, ?_⟩ <;>
      simp [uploadFileHandler, hid, hh, updateJob, hjob, lookupJob_setJob_self,
        setJob_setJob, hsize, hm, hsrc, jobCancelled]
  · subst hft
    rw [if_neg (by decide)] at hsize
    refine ⟨?_, ?_, ?_⟩ <;>
      simp [uploadFileHandler, hid, hh, updateJob, hjob, lookupJob_setJob_self,
        setJob_setJob, hsize, hm, hsrc, jobCancelled]

/-- Witness for `C7_transform_failure_falls_back`: a sharp failure on the
small image run behaves exactly as a transformation returning the
original bytes. -/
theorem C7_transform_failure_falls_back_witness :
    uploadFileHandler [("job-3", jobImg)] [("temp/2-pic.png", "raw")] (some smallImage)
        "image" "job-3"
        { compress := CompressOutcome.thrown "sharp failed", net := netDirectImg }
      = uploadFileHandler [("job-3", jobImg)] [("temp/2-pic.png", "raw")]
        (some smallImage) "image" "job-3"
        { compress := CompressOutcome.ok "raw", net := netDirectImg } :=
  (C7_transform_failure_falls_back [("job-3", jobImg)] [("temp/2-pic.png", "raw")]
    smallImage "image" "job-3" jobImg netDirectImg "sharp failed" "raw"
    (Or.inl rfl) (by decide) (by decide) (by decide) (by decide) (by decide)).1

/-! ## Claim C8 -/

/-- A poll oracle whose first status query fails with a network error and
whose second reports READY with a URL. -/
def pollRetrySucceeds : Nat → PollResponse := fun i =>
  if i = 0 then PollResponse.netErr
  else PollResponse.node
    (some { fileStatus := "READY", imageUrl := some "https://cdn.example/after-retry.png" })

/-- C8, counterexample.  The claim says a single failed file-status call
fails the whole job without the call being reissued.  In the tracker
variant the first status query's network failure is caught and logged,
the query is reissued on the next iteration, and the job succeeds — two
queries were sent and nothing failed. -/
theorem C8_counterexample_poll_retried :
    (waitForFileReady pollRetrySucceeds "job-2" [("job-2", jobActive)] 30 5000).result
      = WaitResult.ready "https://cdn.example/after-retry.png" ∧
    (waitForFileReady pollRetrySucceeds "job-2" [("job-2", jobActive)] 30 5000).queries
      = 2 := by
  exact ⟨rfl, rfl⟩

/-- C8, amended: staged-upload, blob-storage and file-creation failures
each fail the driver immediately — the failed call is issued once and
nothing further is sent — and a full handler run with a failed staged
upload ends the job in `error` after that single call; in the simple
variant a failed status poll also fails the run at once.  Only the
tracker variant's ready-polling retries: a non-abort status-query failure
is swallowed and the query reissued on the next iteration, bounded by
`maxAttempts`. -/
theorem C8_single_failure_fails_job :
    (∀ (net : NetEnv) (table : JobTable) (uploadId : String) (st : UploadStatus)
        (size : Nat),
      lookupJob table uploadId = some st → net.stagedResp = Except.ok none →
      uploadImageToShopify net table uploadId size
        = (Except.error "Failed to get download URL",
           setJob table uploadId { st with hasAbortController := true },
           [NetCall.stagedUploadsCreate])) ∧
    (∀ (net : NetEnv) (table : JobTable) (uploadId : String) (st : UploadStatus)
        (size : Nat) (tg : StagedTarget) (b : String),
      lookupJob table uploadId = some st →
      net.stagedResp = Except.ok (some tg) → net.s3Resp = Except.ok (false, b) →
      uploadImageToShopify net table uploadId size
        = (Except.error ("Loading error S3: " ++ b),
           setJob table uploadId
             { st with status := JobState.uploading, progress := 60,
                       hasAbortController := true },
           [NetCall.stagedUploadsCreate, NetCall.s3Upload])) ∧
    (∀ (net : NetEnv) (table : JobTable) (uploadId : String) (st : UploadStatus)
        (size : Nat) (tg : StagedTarget) (b e : String),
      lookupJob table uploadId = some st →
      net.stagedResp = Except.ok (some tg) → net.s3Resp = Except.ok (true, b) →
      net.fcResp = Except.error e →
      uploadImageToShopify net table uploadId size
        = (Except.error e,
           setJob table uploadId
             { st with status := JobState.uploading, progress := 80,
                       hasAbortController := true },
           [NetCall.stagedUploadsCreate, NetCall.s3Upload, NetCall.fileCreate])) ∧
    (∀ (env : Nat → ServerTs.PollOutcome) (i attempt fuel : Nat) (m : String),
      env attempt = ServerTs.PollOutcome.thrownNet m →
      ServerTs.waitForFileReady env i attempt (fuel + 1) = (Except.error m, 1, [])) ∧
    (∀ (table : JobTable) (fs : Files) (f : MFile) (uploadId : String)
        (st : UploadStatus) (c : String) (net : NetEnv),
      ¬ uploadId = "" → lookupJob table uploadId = some st →
      ¬ f.size > 10 * 1024 * 1024 → net.stagedResp = Except.ok none →
      (uploadFileHandler table fs (some f) "image" uploadId
          { compress := CompressOutcome.ok c, net := net }).resp
        = { code := 500, body := RespBody.errMsg "Error uploading file" } ∧
      (lookupJob (uploadFileHandler table fs (some f) "image" uploadId
          { compress := CompressOutcome.ok c, net := net }).table uploadId).map
          (fun s => s.status) = some JobState.error ∧
      (uploadFileHandler table fs (some f) "image" uploadId
          { compress := CompressOutcome.ok c, net := net }).calls
        = [NetCall.stagedUploadsCreate]) := by
  refine ⟨?_, ?_, ?_, ?_, ?_⟩
  · intro net table uploadId st size hjob hstaged
    simp [uploadImageToShopify, createStagedUpload, updateJob, hjob, hstaged]
  · intro net table uploadId st size tg b hjob hstaged hs3
    simp [uploadImageToShopify, createStagedUpload, uploadFileToS3, updateJob, hjob,
      hstaged, hs3, lookupJob_setJob_self, setJob_setJob]
  · intro net table uploadId st size tg b e hjob hstaged hs3 hfc
    simp [uploadImageToShopify, createStagedUpload, uploadFileToS3, updateJob, hjob,
      hstaged, hs3, hfc, lookupJob_setJob_self, setJob_setJob]
  · intro env i attempt fuel m h
    simp [ServerTs.waitForFileReady, h]
  · intro table fs f uploadId st c net hid hjob hsize hstaged
    rw [handler_image_stagedFail_eq table fs f uploadId st c net hid hjob hsize hstaged]
    exact ⟨rfl, by simp [lookupJob_setJob_self], rfl⟩

/-- An oracle whose staged-upload call yields no usable target. -/
def netStagedFail : NetEnv :=
  { stagedResp := Except.ok none, s3Resp := Except.ok (true, ""),
    fcResp := Except.ok {}, pollEnv := fun _ => PollResponse.netErr }

/-- Witness for `C8_single_failure_fails_job`: a failed staged upload
ends the concrete image run in `error` after exactly one call. -/
theorem C8_single_failure_fails_job_witness :
    (uploadFileHandler [("job-3", jobImg)] [("temp/2-pic.png", "raw")] (some smallImage)
        "image" "job-3" { compress := CompressOutcome.ok "small", net := netStagedFail }).calls
      = [NetCall.stagedUploadsCreate] ∧
    (lookupJob (uploadFileHandler [("job-3", jobImg)] [("temp/2-pic.png", "raw")]
        (some smallImage) "image" "job-3"
        { compress := CompressOutcome.ok "small", net := netStagedFail }).table
        "job-3").map (fun s => s.status) = some JobState.error := by
  have h := C8_single_failure_fails_job.2.2.2.2 [("job-3", jobImg)]
    [("temp/2-pic.png", "raw")] smallImage "job-3" jobImg "small" netStagedFail
    (by decide) (by decide) (by decide) rfl
  exact ⟨h.2.2, h.2.1⟩
